import Mathlib

/-!
Shallow embedding of the scene-replication subsystem of the rbfx engine
(`Source/Urho3D/Replica/ReplicationManager.cpp`): the `NetworkObjectRegistry`
(dirty tracking, sorted hierarchy traversal) and the `ReplicationManager`
mode state machine (Standalone/Server/Client, client handshake, message
routing).

Objects are identified by a `Nat` pointer identity (`ObjId`); the registry
addresses them through `NetworkId = (index, version)` slots.  The base
tracked-component registry, the `NetworkObject` accessors and the
Server/Client replica internals are not part of the excerpt; where they are
needed they are modelled from the spec, as marked on each definition.
-/

namespace Rbfx

/-- A stable reference: slot index plus reuse version
(`NetworkId` a.k.a. `ComponentReference`). -/
structure NetworkId where
  index : Nat
  version : Nat
deriving DecidableEq

/-- `NetworkId::None`, the invalid reference constant. -/
def NetworkId.invalid : NetworkId := ⟨4294967295, 4294967295⟩

/-- Network-related mode of a single `NetworkObject`
(`Draft` is the initial mode before any initialization). -/
inductive NetworkObjectMode where
  | draft
  | standalone
  | serverAuthoritative
  | clientReplicated
deriving DecidableEq

/-- The observable fields of a `NetworkObject` component.  `parent` is the
weak back-reference `GetParentNetworkObject()`; it is nulled when the target
object is destroyed (WeakPtr semantics).  The two counters record how many
times `InitializeStandalone` and `UpdateObjectHierarchy` (together with the
forced world-transform read) ran on the object. -/
structure NetObj where
  netId : NetworkId
  parent : Option Nat
  mode : NetworkObjectMode
  initStandaloneCount : Nat
  hierarchyUpdateCount : Nat
deriving DecidableEq

/-- One slot of the reference-indexed registry: the object currently stored
under this index (if any) and the slot's current version. -/
structure Slot where
  obj : Option Nat
  version : Nat
deriving DecidableEq

/-- Modelled from the spec: the Client Replica is an external detail object;
the manager only constructs it from the scene, the connection, the initial
clock snapshot and the server settings. -/
structure ClientReplica where
  connection : Nat
  initialClock : Nat
  serverSettings : Nat
deriving DecidableEq

/-- Modelled from the spec: the Server Replicator is an external detail
object; the manager forwards `RemoveConnection` calls to it, which we record
in a log. -/
structure ServerReplicator where
  removedConnections : List Nat
deriving DecidableEq

/-- `ReplicationManager::ClientData`: connection handle, handshake
accumulator fields and the replica once constructed. -/
structure ClientData where
  connection : Nat
  ackMagic : Option Nat
  serverSettings : Option Nat
  initialClock : Option Nat
  replica : Option ClientReplica
deriving DecidableEq

/-- The `ClientData` created by `StartClient`. -/
def ClientData.fresh (conn : Nat) : ClientData :=
  ⟨conn, none, none, none, none⟩

/-- Modelled from the spec: the replica is constructed "once the connection
reports its system clock is synchronized with the server AND both the
settings bundle and the initial clock snapshot have been received"; the
clock-synchronization part is checked separately on the connection, so
`IsReadyToInitialize` is the reception of settings and clock snapshot. -/
def ClientData.isReadyToInitialize (cd : ClientData) : Bool :=
  cd.serverSettings.isSome && cd.initialClock.isSome

/-- `ReplicationManagerMode`. -/
inductive ReplicationManagerMode where
  | standalone
  | server
  | client
deriving DecidableEq

/-- Delivery classes of the transport (`PacketType`). -/
inductive PacketType where
  | reliableOrdered
  | reliableUnordered
  | unreliableOrdered
  | unreliableUnordered
deriving DecidableEq

/-- A `MSG_SYNCHRONIZED` acknowledgement written to a connection: the only
message this subsystem ever sends. -/
structure SentMsg where
  connection : Nat
  magic : Nat
  packet : PacketType
deriving DecidableEq

/-- An inbound protocol message, bundling the message id with its decoded
payload (`ReadSerializedMessage` is applied per branch in the source).
`other` covers every message id other than `MSG_CONFIGURE` and
`MSG_SCENE_CLOCK`. -/
inductive InMsg where
  | configure (magic : Nat) (settings : Nat)
  | sceneClock (clock : Nat)
  | other (id : Nat)
deriving DecidableEq

/-- The whole `ReplicationManager` state (which inherits
`NetworkObjectRegistry`): reference slots, the allocated-object heap keyed by
pointer identity, the registration order of currently tracked objects, the
dirty-flag vector, and the mode state machine fields. -/
structure Manager where
  slots : List Slot
  heap : List (Nat × NetObj)
  trackedOrder : List Nat
  networkObjectsDirty : List Bool
  mode : ReplicationManagerMode
  client : Option ClientData
  server : Option ServerReplicator
  recentlyAddedObjects : List NetworkId
deriving DecidableEq

/-- A freshly constructed manager. -/
def Manager.fresh : Manager :=
  ⟨[], [], [], [], .standalone, none, none, []⟩

/-- Look up an allocated object by pointer identity. -/
def heapGet (h : List (Nat × NetObj)) (oid : Nat) : Option NetObj :=
  (h.find? (fun e => e.1 = oid)).map Prod.snd

/-- Update an allocated object in place. -/
def heapSet (h : List (Nat × NetObj)) (oid : Nat) (f : NetObj → NetObj) :
    List (Nat × NetObj) :=
  h.map (fun e => if e.1 = oid then (e.1, f e.2) else e)

/-- Null every weak parent reference to a destroyed object. -/
def heapNullParents (h : List (Nat × NetObj)) (oid : Nat) :
    List (Nat × NetObj) :=
  h.map (fun e => if e.2.parent = some oid then (e.1, { e.2 with parent := none }) else e)

/-- Modelled from the spec: checked/unchecked lookup of the base registry —
"returns the live component or a no-match signal if the slot is empty,
version mismatches ignoring unchecked accesses, or the index exceeds the
index space" (`GetNetworkObject`). -/
def Manager.getNetworkObject (s : Manager) (id : NetworkId)
    (checkVersion : Bool := true) : Option Nat :=
  let slot := s.slots.getD id.index ⟨none, 0⟩
  match slot.obj with
  | some oid => if !checkVersion || slot.version == id.version then some oid else none
  | none => none

/-- `GetNetworkObjectByIndex`: unchecked lookup by slot index. -/
def Manager.getNetworkObjectByIndex (s : Manager) (index : Nat) : Option Nat :=
  (s.slots.getD index ⟨none, 0⟩).obj

/-- `NetworkObject::GetParentNetworkObject` on the embedded heap. -/
def Manager.getParentNetworkObject (s : Manager) (oid : Nat) : Option Nat :=
  match heapGet s.heap oid with
  | some o => o.parent
  | none => none

/-- `ReplicationManager::IsStandalone`. -/
def Manager.isStandalone (s : Manager) : Bool :=
  s.mode = .standalone

/-- `NetworkObjectRegistry::QueueNetworkObjectUpdate`: validate that the
passed object is exactly the one currently registered under its own id;
mark its index dirty, otherwise log a warning and do nothing. -/
def Manager.queueNetworkObjectUpdate (s : Manager) (p : Nat) : Manager :=
  match heapGet s.heap p with
  | none => s
  | some obj =>
    if s.getNetworkObject obj.netId = some p then
      { s with networkObjectsDirty := s.networkObjectsDirty.set obj.netId.index true }
    else
      s

/-- First free slot index, if any (spec-modelled slot reuse of the base
registry's `Add`). -/
def findFreeIndex (slots : List Slot) : Option Nat :=
  (List.range slots.length).find? (fun i => (slots.getD i ⟨none, 0⟩).obj = none)

/-- Modelled from the spec: the base registry's `Add` — "assigns or reuses a
(index, version) reference"; a reused slot gets a bumped version so that
stale references are rejected.  Returns the assigned id.  The new object
starts in `Draft` mode with the given weak parent reference. -/
def Manager.baseAdd (s : Manager) (oid : Nat) (par : Option Nat) :
    Manager × NetworkId :=
  match findFreeIndex s.slots with
  | some i =>
    let v := (s.slots.getD i ⟨none, 0⟩).version + 1
    let id : NetworkId := ⟨i, v⟩
    ({ s with
        slots := s.slots.set i ⟨some oid, v⟩
        heap := (oid, ⟨id, par, .draft, 0, 0⟩) :: s.heap
        trackedOrder := s.trackedOrder ++ [oid] }, id)
  | none =>
    let id : NetworkId := ⟨s.slots.length, 0⟩
    ({ s with
        slots := s.slots ++ [⟨some oid, 0⟩]
        heap := (oid, ⟨id, par, .draft, 0, 0⟩) :: s.heap
        trackedOrder := s.trackedOrder ++ [oid] }, id)

/-- Insert into the recently-added set (`ea::hash_set::insert`). -/
def insertId (l : List NetworkId) (id : NetworkId) : List NetworkId :=
  if id ∈ l then l else l ++ [id]

/-- Erase from the recently-added set (`ea::hash_set::erase`). -/
def eraseId (l : List NetworkId) (id : NetworkId) : List NetworkId :=
  l.filter (fun x => x ≠ id)

/-- `NetworkObjectRegistry::OnComponentAdded` followed by
`ReplicationManager::OnComponentAdded`: base add, grow the dirty vector to
cover the new index, mark it dirty, and in Standalone mode remember the id
in the recently-added set. -/
def Manager.addNetworkObject (s : Manager) (oid : Nat) (par : Option Nat) :
    Manager :=
  let r := s.baseAdd oid par
  let s1 := r.1
  let id := r.2
  let grown :=
    if s1.networkObjectsDirty.length ≤ id.index then
      s1.networkObjectsDirty ++
        List.replicate (id.index + 1 - s1.networkObjectsDirty.length) false
    else
      s1.networkObjectsDirty
  let s2 := { s1 with networkObjectsDirty := grown.set id.index true }
  if s2.isStandalone then
    { s2 with recentlyAddedObjects := insertId s2.recentlyAddedObjects id }
  else
    s2

/-- The standalone-bookkeeping step of
`ReplicationManager::OnComponentRemoved`: in Standalone mode, drop the
removed object's id from the recently-added set. -/
def Manager.removeErasePhase (s : Manager) (obj : NetObj) : Manager :=
  if s.isStandalone then
    { s with recentlyAddedObjects := eraseId s.recentlyAddedObjects obj.netId }
  else
    s

/-- The parent-dirtying step of `NetworkObjectRegistry::OnComponentRemoved`:
if the removed object has a live parent with a valid id, queue an update for
the parent. -/
def Manager.removeParentDirtyPhase (s : Manager) (obj : NetObj) : Manager :=
  match obj.parent with
  | some p =>
    match heapGet s.heap p with
    | some pobj =>
      if pobj.netId ≠ NetworkId.invalid then s.queueNetworkObjectUpdate p else s
    | none => s
  | none => s

/-- `ReplicationManager::OnComponentRemoved` followed by
`NetworkObjectRegistry::OnComponentRemoved` and the base removal: drop the
id from the standalone bookkeeping, queue an update for the parent (if it is
live and has a valid id), then free the slot, unlink from the registration
order and null incoming weak references.  The heap entry itself stays: a
stale pointer to the object may survive the unregistration. -/
def Manager.removeNetworkObject (s : Manager) (oid : Nat) : Manager :=
  if oid ∈ s.trackedOrder then
    match heapGet s.heap oid with
    | none => s
    | some obj =>
      let s2 := (s.removeErasePhase obj).removeParentDirtyPhase obj
      { s2 with
          slots := s2.slots.map (fun sl => if sl.obj = some oid then { sl with obj := none } else sl)
          trackedOrder := s2.trackedOrder.filter (fun x => x ≠ oid)
          heap := heapNullParents s2.heap oid }
  else
    s

/-- `NetworkObjectRegistry::RemoveAllNetworkObjects`: snapshot the owning
nodes of all current objects, remove each through the normal removal path,
then clear the dirty-flag vector. -/
def Manager.removeAllNetworkObjects (s : Manager) : Manager :=
  let s1 := s.trackedOrder.foldl (fun acc oid => acc.removeNetworkObject oid) s
  { s1 with networkObjectsDirty := [] }

/-- `networkObject->UpdateObjectHierarchy()` plus the forced
`GetWorldTransform()` read, observed as a counter bump. -/
def Manager.touchNetworkObject (s : Manager) (oid : Nat) : Manager :=
  { s with
      heap := heapSet s.heap oid
        (fun o => { o with hierarchyUpdateCount := o.hierarchyUpdateCount + 1 }) }

/-- One iteration of the `UpdateNetworkObjects` scan at a given index. -/
def Manager.updateStep (s : Manager) (index : Nat) : Manager :=
  if s.networkObjectsDirty.getD index false then
    let s1 :=
      match s.getNetworkObjectByIndex index with
      | some oid => s.touchNetworkObject oid
      | none => s
    { s1 with networkObjectsDirty := s1.networkObjectsDirty.set index false }
  else
    s

/-- `NetworkObjectRegistry::UpdateNetworkObjects`: scan the dirty vector by
ascending index; refresh each flagged, still-resolvable object; clear the
flag unconditionally. -/
def Manager.updateNetworkObjects (s : Manager) : Manager :=
  (List.range s.networkObjectsDirty.length).foldl Manager.updateStep s

/-- Modelled from the spec: `NetworkObject::GetChildrenNetworkObjects` — the
children set is "derived, not stored directly — discovered by scanning" the
tracked objects in registration order. -/
def Manager.getChildrenNetworkObjects (s : Manager) (p : Nat) : List Nat :=
  s.trackedOrder.filter (fun c => s.getParentNetworkObject c = some p)

/-- The root enumeration of `GetSortedNetworkObjects`: tracked objects with
no parent, in component-registration order. -/
def Manager.sortedRoots (s : Manager) : List Nat :=
  s.trackedOrder.filter (fun c => s.getParentNetworkObject c = none)

/-- The child-enumeration loop of `GetSortedNetworkObjects`: the output
array is reused as a growing worklist (`array may grow on iteration`).  The
C++ loop is unbounded; the fuel only serves Lean totality and is chosen
large enough that, for the states the theorems quantify over, the loop runs
to completion exactly as in the source. -/
def sortedLoop (s : Manager) (acc : List Nat) (i : Nat) (fuel : Nat) : List Nat :=
  match fuel with
  | 0 => acc
  | fuel + 1 =>
    if h : i < acc.length then
      sortedLoop s (acc ++ s.getChildrenNetworkObjects (acc.get ⟨i, h⟩)) (i + 1) fuel
    else
      acc

/-- `NetworkObjectRegistry::GetSortedNetworkObjects`. -/
def Manager.getSortedNetworkObjects (s : Manager) : List Nat :=
  sortedLoop s s.sortedRoots 0 (s.trackedOrder.length + 1)

/-- The strict-ancestor relation induced by parent links: `descendantRel s o d`
holds when `d` is a proper descendant of `o`. -/
def descendantRel (s : Manager) (o d : Nat) : Prop :=
  Relation.TransGen (fun p c => s.getParentNetworkObject c = some p) o d

/-- `ClientReplica::InitializeStandalone` effect on one object as driven by
the manager: set the network mode to Standalone and run the standalone
initialization once. -/
def Manager.setObjStandaloneInit (s : Manager) (oid : Nat) : Manager :=
  { s with
      heap := heapSet s.heap oid
        (fun o => { o with
            mode := .standalone
            initStandaloneCount := o.initStandaloneCount + 1 }) }

/-- The resolution-and-initialization fold of `InitializeObjectsStandalone`. -/
def initFold (t : Manager) (l : List NetworkId) : Manager :=
  l.foldl (fun acc id =>
    match acc.getNetworkObject id with
    | some oid => acc.setObjStandaloneInit oid
    | none => acc) t

/-- `ReplicationManager::InitializeObjectsStandalone`: initialize every
recently added object that still resolves, then clear the set. -/
def Manager.initializeObjectsStandalone (s : Manager) : Manager :=
  let s1 := initFold s s.recentlyAddedObjects
  { s1 with recentlyAddedObjects := [] }

/-- `ReplicationManager::Stop`: tear down client and server state, reset the
standalone bookkeeping, return to Standalone mode. -/
def Manager.stop (s : Manager) : Manager :=
  { s with client := none, server := none, recentlyAddedObjects := [], mode := .standalone }

/-- `ReplicationManager::StartStandalone`: stop, set mode, then initialize
every currently registered object as standalone (in registration order). -/
def Manager.startStandalone (s : Manager) : Manager :=
  let s1 := s.stop
  let s2 := { s1 with mode := ReplicationManagerMode.standalone }
  s2.trackedOrder.foldl (fun acc oid => acc.setObjStandaloneInit oid) s2

/-- `ReplicationManager::StartServer`. -/
def Manager.startServer (s : Manager) : Manager :=
  let s1 := s.stop
  { s1 with mode := .server, server := some ⟨[]⟩ }

/-- `ReplicationManager::StartClient`. -/
def Manager.startClient (s : Manager) (conn : Nat) : Manager :=
  let s1 := s.stop
  let s2 := { s1 with mode := ReplicationManagerMode.client, client := some (ClientData.fresh conn) }
  s2.removeAllNetworkObjects

/-- `ServerReplicator::RemoveConnection`, recorded in the forwarding log. -/
def ServerReplicator.removeConnection (sv : ServerReplicator) (conn : Nat) :
    ServerReplicator :=
  { sv with removedConnections := sv.removedConnections ++ [conn] }

/-- `ReplicationManager::DropConnection`. -/
def Manager.dropConnection (s : Manager) (conn : Nat) : Manager :=
  match s.server with
  | some sv => { s with server := some (sv.removeConnection conn) }
  | none =>
    match s.client with
    | some cd => if cd.connection = conn then s.startStandalone else s
    | none => s

/-- The creation check at the end of `ProcessMessageOnUninitializedClient`:
if the connection clock is synchronized and the client is ready, construct
the replica and send the `MSG_SYNCHRONIZED` acknowledgement with the
captured magic over the reliable-unordered class. -/
def ClientData.tryInitialize (cd : ClientData) (connSync : Bool) (conn : Nat) :
    ClientData × List SentMsg :=
  if connSync && cd.isReadyToInitialize then
    ({ cd with replica := some ⟨conn, cd.initialClock.getD 0, cd.serverSettings.getD 0⟩ },
     [⟨conn, cd.ackMagic.getD 0, .reliableUnordered⟩])
  else
    (cd, [])

/-- `ReplicationManager::ProcessMessageOnUninitializedClient`: a Configure
message captures the magic and the settings bundle, a SceneClock message
captures the initial clock snapshot (both then run the creation check and
are consumed); any other message is not consumed. -/
def processMessageOnUninitializedClient (cd : ClientData) (connSync : Bool)
    (conn : Nat) (msg : InMsg) : ClientData × List SentMsg × Bool :=
  match msg with
  | .configure magic settings =>
    let cd1 := { cd with ackMagic := some magic, serverSettings := some settings }
    let r := cd1.tryInitialize connSync conn
    (r.1, r.2, true)
  | .sceneClock clock =>
    let cd1 := { cd with initialClock := some clock }
    let r := cd1.tryInitialize connSync conn
    (r.1, r.2, true)
  | .other _ => (cd, [], false)

/-- `ReplicationManager::ProcessMessage`.  The Client Replica and Server
Replicator message handlers are external detail objects (spec: external
collaborators); they are taken as parameters, so every theorem below holds
for an arbitrary choice of them.  `connSync` is the connection's
`IsClockSynchronized()` report at the time of the call. -/
def processMessage (rh : ClientReplica → InMsg → ClientReplica × Bool)
    (sh : ServerReplicator → Nat → InMsg → ServerReplicator × Bool)
    (s : Manager) (connSync : Bool) (conn : Nat) (msg : InMsg) :
    Manager × List SentMsg × Bool :=
  match s.client with
  | some cd =>
    match cd.replica with
    | none =>
      let r := processMessageOnUninitializedClient cd connSync conn msg
      ({ s with client := some r.1 }, r.2.1, r.2.2)
    | some rep =>
      let r := rh rep msg
      ({ s with client := some { cd with replica := some r.1 } }, [], r.2)
  | none =>
    match s.server with
    | some sv =>
      let r := sh sv conn msg
      ({ s with server := some r.1 }, [], r.2)
    | none => (s, [], false)

/-- `ReplicationManager::GetUninitializedClientDebugInfo`, reduced to the
wait list it assembles.  The connection handle is live in this model, so the
`client_->connection_ &&` guard of the first check is satisfied. -/
def ClientData.uninitializedDebugWaitList (cd : ClientData) (connSync : Bool) :
    List String :=
  let w : List String := []
  let w := if !connSync then w ++ ["system clock"] else w
  let w := if cd.serverSettings.isNone then w ++ ["settings"] else w
  if cd.initialClock.isNone || w.isEmpty then w ++ ["server scene time"] else w

/-- The formatted debug string built from the wait list. -/
def ClientData.uninitializedDebugInfo (cd : ClientData) (connSync : Bool) : String :=
  "Connecting... Waiting for " ++
    String.intercalate ", " (cd.uninitializedDebugWaitList connSync) ++ "..."

/-- One delivery to `ProcessMessage`: the decoded message together with the
connection's clock-synchronization report at delivery time. -/
structure Ev where
  msg : InMsg
  sync : Bool
deriving DecidableEq

/-- Whether an event is a Configure delivery. -/
def Ev.isConfigure : Ev → Bool
  | ⟨.configure _ _, _⟩ => true
  | _ => false

/-- Whether an event is a SceneClock delivery. -/
def Ev.isSceneClock : Ev → Bool
  | ⟨.sceneClock _, _⟩ => true
  | _ => false

/-- The magic of a Configure delivery, if it is one. -/
def Ev.configMagic : Ev → Option Nat
  | ⟨.configure m _, _⟩ => some m
  | _ => none

/-- Deliver a sequence of messages to `ProcessMessage`, accumulating every
message the manager writes back to the connection. -/
def runMessages (rh : ClientReplica → InMsg → ClientReplica × Bool)
    (sh : ServerReplicator → Nat → InMsg → ServerReplicator × Bool)
    (conn : Nat) (s : Manager) : List Ev → Manager × List SentMsg
  | [] => (s, [])
  | e :: es =>
    let r := processMessage rh sh s e.sync conn e.msg
    let rest := runMessages rh sh conn r.1 es
    (rest.1, r.2.1 ++ rest.2)

/-- The client replica slot of a manager state, if the manager is a client. -/
def Manager.clientReplica (s : Manager) : Option ClientReplica :=
  match s.client with
  | some cd => cd.replica
  | none => none

/-- The mode-state-machine projection of a manager: mode, client state,
server state and standalone bookkeeping (everything except the registry
contents). -/
def Manager.modeProjection (s : Manager) :
    ReplicationManagerMode × Option ClientData × Option ServerReplicator × List NetworkId :=
  (s.mode, s.client, s.server, s.recentlyAddedObjects)

/-- A manager that has been used (one object registered), for comparing
post-`Stop` restarts against a fresh manager. -/
def mUsed : Manager := Manager.fresh.addNetworkObject 1 none

/-- A registry that reused slot 0: object 1 was registered, removed, and
object 2 took its slot with a bumped version.  Pointer 1 is now stale. -/
def mStale : Manager :=
  ((Manager.fresh.addNetworkObject 1 none).removeNetworkObject 1).addNetworkObject 2 none

/-- The stale object that pointer 1 still refers to in `mStale`. -/
def objStale : NetObj := ⟨⟨0, 0⟩, none, .draft, 0, 0⟩

/-- A pre-initialization client that has received both handshake messages
(settings and clock snapshot) while its connection clock was unsynchronized;
the connection now reports a synchronized clock. -/
def cdBoth : ClientData := ⟨7, some 1, some 2, some 3, none⟩

/-- A client-mode manager bound to connection 5, with one registered
object, for exercising `DropConnection`. -/
def mClientDrop : Manager :=
  { Manager.fresh with
      mode := .client
      client := some (ClientData.fresh 5)
      slots := [⟨some 1, 0⟩]
      heap := [(1, ⟨⟨0, 0⟩, none, .draft, 0, 0⟩)]
      trackedOrder := [1]
      networkObjectsDirty := [false] }

/-- A standalone manager with three objects registered in one frame, all
pending standalone initialization. -/
def mStandalone3 : Manager :=
  ((Manager.fresh.addNetworkObject 1 none).addNetworkObject 2 none).addNetworkObject 3 none

/-- A trivial client-replica message handler (the replica internals are
external to this subsystem). -/
def rhTriv : ClientReplica → InMsg → ClientReplica × Bool := fun r _ => (r, true)

/-- A trivial server-replicator message handler. -/
def shTriv : ServerReplicator → Nat → InMsg → ServerReplicator × Bool :=
  fun sv _ _ => (sv, true)

/-- A freshly started client bound to connection 7. -/
def mClientFresh : Manager := Manager.fresh.startClient 7

/-- A handshake delivery sequence: Configure while the clock is not yet
synchronized, then SceneClock once it is. -/
def evtsC1 : List Ev := [⟨InMsg.configure 42 9, false⟩, ⟨InMsg.sceneClock 3, true⟩]

/-- Loop invariant of the growing-worklist traversal in
`GetSortedNetworkObjects`: the processed prefix is `acc.take i`; the list is
duplicate-free, holds only tracked objects — exactly those that are roots or
whose parent is already processed — and every element with a parent has that
parent strictly earlier in the list, inside the processed prefix. -/
def SortedInv (s : Manager) (acc : List Nat) (i : Nat) : Prop :=
  acc.Nodup ∧ i ≤ acc.length ∧
  (∀ o, o ∈ acc ↔ (o ∈ s.trackedOrder ∧
    (s.getParentNetworkObject o = none ∨
      ∃ p, s.getParentNetworkObject o = some p ∧ p ∈ acc.take i))) ∧
  (∀ j, ∀ (hj : j < acc.length), ∀ p,
    s.getParentNetworkObject acc[j] = some p →
    ∃ k, ∃ (hk : k < acc.length), k < j ∧ k < i ∧ acc[k] = p)

/-- A three-object chain: object 2 is a child of 1, and 3 a child of 2. -/
def mChain : Manager :=
  ((Manager.fresh.addNetworkObject 1 none).addNetworkObject 2 (some 1)).addNetworkObject 3
    (some 2)

-- ======================================================================
-- Theorems
-- ======================================================================

theorem getD_set_bool (l : List Bool) (j i : Nat) (b d : Bool) :
    (l.set j b).getD i d = if i = j ∧ j < l.length then b else l.getD i d := by
  induction l generalizing i j with
  | nil => simp
  | cons a t ih =>
    cases j with
    | zero =>
      cases i with
      | zero => simp
      | succ i => simp
    | succ j =>
      cases i with
      | zero => simp
      | succ i => simpa [Nat.succ_lt_succ_iff] using ih j i

theorem getD_oob_bool (l : List Bool) (i : Nat) (h : l.length ≤ i) :
    l.getD i false = false := by
  simp [List.getD_eq_getElem?_getD, List.getElem?_eq_none h]

theorem updateStep_dirty (s : Manager) (j : Nat) :
    (s.updateStep j).networkObjectsDirty =
      if s.networkObjectsDirty.getD j false then s.networkObjectsDirty.set j false
      else s.networkObjectsDirty := by
  unfold Manager.updateStep
  split
  · cases h : s.getNetworkObjectByIndex j <;> simp_all [Manager.touchNetworkObject]
  · simp_all

theorem updateStep_dirty_getD (s : Manager) (j i : Nat) :
    (s.updateStep j).networkObjectsDirty.getD i false =
      if i = j then false else s.networkObjectsDirty.getD i false := by
  rw [updateStep_dirty]
  by_cases hg : s.networkObjectsDirty.getD j false
  · rw [if_pos hg, getD_set_bool]
    by_cases hij : i = j
    · subst hij
      by_cases hlt : i < s.networkObjectsDirty.length
      · simp [hlt]
      · rw [getD_oob_bool s.networkObjectsDirty i (Nat.le_of_not_lt hlt)] at hg
        cases hg
    · simp [hij]
  · rw [if_neg hg]
    by_cases hij : i = j
    · subst hij
      simp [Bool.not_eq_true] at hg
      simp [hg]
    · simp [hij]

theorem foldl_updateStep_getD (L : List Nat) (s : Manager) (i : Nat) :
    ((L.foldl Manager.updateStep s).networkObjectsDirty.getD i false) =
      if i ∈ L then false else s.networkObjectsDirty.getD i false := by
  induction L generalizing s with
  | nil => simp
  | cons j t ih =>
    simp only [List.foldl_cons, ih, List.mem_cons, updateStep_dirty_getD]
    by_cases hit : i ∈ t
    · simp [hit]
    · by_cases hij : i = j <;> simp [hij, hit]

/-- C3: after one `UpdateNetworkObjects` call every entry of the dirty-flag
vector is false (including indexes that no longer resolve), and a second
call with no intervening mutation leaves the whole registry state
unchanged. -/
theorem updateNetworkObjects_clears_dirty_and_idempotent (s : Manager) :
    (∀ i, (s.updateNetworkObjects).networkObjectsDirty.getD i false = false) ∧
    (s.updateNetworkObjects).updateNetworkObjects = s.updateNetworkObjects := by
  have hall : ∀ i, (s.updateNetworkObjects).networkObjectsDirty.getD i false = false := by
    intro i
    unfold Manager.updateNetworkObjects
    rw [foldl_updateStep_getD]
    by_cases h : i ∈ List.range s.networkObjectsDirty.length
    · simp [h]
    · have hle : s.networkObjectsDirty.length ≤ i := by
        simpa [List.mem_range, Nat.not_lt] using h
      rw [if_neg h, getD_oob_bool _ _ hle]
  have skip : ∀ (L : List Nat) (t : Manager),
      (∀ i, t.networkObjectsDirty.getD i false = false) →
      L.foldl Manager.updateStep t = t := by
    intro L
    induction L with
    | nil => intro t _; rfl
    | cons j tl ih =>
      intro t ht
      have hstep : t.updateStep j = t := by
        unfold Manager.updateStep
        rw [ht j]
        simp
      rw [List.foldl_cons, hstep, ih t ht]
  refine ⟨hall, ?_⟩
  have h2 : ∀ t : Manager, (∀ i, t.networkObjectsDirty.getD i false = false) →
      t.updateNetworkObjects = t := by
    intro t ht
    unfold Manager.updateNetworkObjects
    exact skip _ _ ht
  exact h2 _ hall

theorem queue_shape (s : Manager) (p : Nat) :
    ∃ d, s.queueNetworkObjectUpdate p = { s with networkObjectsDirty := d } := by
  cases hg : heapGet s.heap p with
  | none =>
    refine ⟨s.networkObjectsDirty, ?_⟩
    simp only [Manager.queueNetworkObjectUpdate, hg]
  | some obj =>
    by_cases h : s.getNetworkObject obj.netId = some p
    · refine ⟨s.networkObjectsDirty.set obj.netId.index true, ?_⟩
      simp only [Manager.queueNetworkObjectUpdate, hg, if_pos h]
    · refine ⟨s.networkObjectsDirty, ?_⟩
      simp only [Manager.queueNetworkObjectUpdate, hg, if_neg h]

theorem removeErasePhase_shape (s : Manager) (obj : NetObj) :
    ∃ ra, s.removeErasePhase obj = { s with recentlyAddedObjects := ra } := by
  unfold Manager.removeErasePhase
  split
  · exact ⟨_, rfl⟩
  · exact ⟨s.recentlyAddedObjects, rfl⟩

theorem removeParentDirtyPhase_shape (s : Manager) (obj : NetObj) :
    ∃ d, s.removeParentDirtyPhase obj = { s with networkObjectsDirty := d } := by
  cases hp : obj.parent with
  | none =>
    refine ⟨s.networkObjectsDirty, ?_⟩
    simp only [Manager.removeParentDirtyPhase, hp]
  | some p =>
    cases hg : heapGet s.heap p with
    | none =>
      refine ⟨s.networkObjectsDirty, ?_⟩
      simp only [Manager.removeParentDirtyPhase, hp, hg]
    | some pobj =>
      by_cases hid : pobj.netId ≠ NetworkId.invalid
      · obtain ⟨d, hd⟩ := queue_shape s p
        refine ⟨d, ?_⟩
        simp only [Manager.removeParentDirtyPhase, hp, hg, if_pos hid]
        exact hd
      · refine ⟨s.networkObjectsDirty, ?_⟩
        simp only [Manager.removeParentDirtyPhase, hp, hg, if_neg hid]

theorem remove_shape (s : Manager) (oid : Nat) :
    ∃ sl tr hp d ra, s.removeNetworkObject oid =
      { s with slots := sl, trackedOrder := tr, heap := hp,
               networkObjectsDirty := d, recentlyAddedObjects := ra } := by
  by_cases hmem : oid ∈ s.trackedOrder
  · cases hg : heapGet s.heap oid with
    | none =>
      refine ⟨s.slots, s.trackedOrder, s.heap, s.networkObjectsDirty, s.recentlyAddedObjects, ?_⟩
      simp only [Manager.removeNetworkObject, if_pos hmem, hg]
    | some obj =>
      obtain ⟨ra, hra⟩ := removeErasePhase_shape s obj
      obtain ⟨d, hd⟩ := removeParentDirtyPhase_shape (s.removeErasePhase obj) obj
      refine ⟨s.slots.map (fun sl => if sl.obj = some oid then { sl with obj := none } else sl),
        s.trackedOrder.filter (fun x => x ≠ oid), heapNullParents s.heap oid, d, ra, ?_⟩
      simp only [Manager.removeNetworkObject, if_pos hmem, hg]
      rw [hd, hra]
  · refine ⟨s.slots, s.trackedOrder, s.heap, s.networkObjectsDirty, s.recentlyAddedObjects, ?_⟩
    simp only [Manager.removeNetworkObject, if_neg hmem]

theorem remove_modeFields (s : Manager) (oid : Nat) :
    (s.removeNetworkObject oid).mode = s.mode ∧
    (s.removeNetworkObject oid).client = s.client ∧
    (s.removeNetworkObject oid).server = s.server := by
  obtain ⟨sl, tr, hp, d, ra, h⟩ := remove_shape s oid
  rw [h]
  exact ⟨rfl, rfl, rfl⟩

theorem removeErasePhase_empty (s : Manager) (obj : NetObj)
    (h : s.recentlyAddedObjects = []) :
    (s.removeErasePhase obj).recentlyAddedObjects = [] := by
  unfold Manager.removeErasePhase
  split
  · simp [h, eraseId]
  · exact h

theorem remove_recent_empty (s : Manager) (oid : Nat)
    (h : s.recentlyAddedObjects = []) :
    (s.removeNetworkObject oid).recentlyAddedObjects = [] := by
  unfold Manager.removeNetworkObject
  split
  · cases hg : heapGet s.heap oid with
    | none => exact h
    | some obj =>
      obtain ⟨d, hd⟩ := removeParentDirtyPhase_shape (s.removeErasePhase obj) obj
      simp only [hd]
      exact removeErasePhase_empty s obj h
  · exact h

theorem foldl_remove_modeFields (L : List Nat) (t : Manager) :
    ((L.foldl (fun acc oid => acc.removeNetworkObject oid) t).mode = t.mode) ∧
    ((L.foldl (fun acc oid => acc.removeNetworkObject oid) t).client = t.client) ∧
    ((L.foldl (fun acc oid => acc.removeNetworkObject oid) t).server = t.server) ∧
    (t.recentlyAddedObjects = [] →
      (L.foldl (fun acc oid => acc.removeNetworkObject oid) t).recentlyAddedObjects = []) := by
  induction L generalizing t with
  | nil => exact ⟨rfl, rfl, rfl, fun h => h⟩
  | cons a tl ih =>
    simp only [List.foldl_cons]
    obtain ⟨h1, h2, h3⟩ := remove_modeFields t a
    obtain ⟨i1, i2, i3, i4⟩ := ih (t.removeNetworkObject a)
    exact ⟨i1.trans h1, i2.trans h2, i3.trans h3,
      fun h => i4 (remove_recent_empty t a h)⟩

theorem removeAll_fields (s : Manager) :
    (s.removeAllNetworkObjects).mode = s.mode ∧
    (s.removeAllNetworkObjects).client = s.client ∧
    (s.removeAllNetworkObjects).server = s.server ∧
    (s.recentlyAddedObjects = [] → (s.removeAllNetworkObjects).recentlyAddedObjects = []) ∧
    (s.removeAllNetworkObjects).networkObjectsDirty = [] := by
  unfold Manager.removeAllNetworkObjects
  obtain ⟨h1, h2, h3, h4⟩ := foldl_remove_modeFields s.trackedOrder s
  exact ⟨h1, h2, h3, h4, rfl⟩

theorem setObjStandaloneInit_fields (s : Manager) (oid : Nat) :
    (s.setObjStandaloneInit oid).slots = s.slots ∧
    (s.setObjStandaloneInit oid).trackedOrder = s.trackedOrder ∧
    (s.setObjStandaloneInit oid).networkObjectsDirty = s.networkObjectsDirty ∧
    (s.setObjStandaloneInit oid).mode = s.mode ∧
    (s.setObjStandaloneInit oid).client = s.client ∧
    (s.setObjStandaloneInit oid).server = s.server ∧
    (s.setObjStandaloneInit oid).recentlyAddedObjects = s.recentlyAddedObjects :=
  ⟨rfl, rfl, rfl, rfl, rfl, rfl, rfl⟩

theorem foldl_init_fields (L : List Nat) (t : Manager) :
    ((L.foldl (fun acc oid => acc.setObjStandaloneInit oid) t).slots = t.slots) ∧
    ((L.foldl (fun acc oid => acc.setObjStandaloneInit oid) t).trackedOrder = t.trackedOrder) ∧
    ((L.foldl (fun acc oid => acc.setObjStandaloneInit oid) t).networkObjectsDirty =
      t.networkObjectsDirty) ∧
    ((L.foldl (fun acc oid => acc.setObjStandaloneInit oid) t).mode = t.mode) ∧
    ((L.foldl (fun acc oid => acc.setObjStandaloneInit oid) t).client = t.client) ∧
    ((L.foldl (fun acc oid => acc.setObjStandaloneInit oid) t).server = t.server) ∧
    ((L.foldl (fun acc oid => acc.setObjStandaloneInit oid) t).recentlyAddedObjects =
      t.recentlyAddedObjects) := by
  induction L generalizing t with
  | nil => exact ⟨rfl, rfl, rfl, rfl, rfl, rfl, rfl⟩
  | cons a tl ih =>
    simp only [List.foldl_cons]
    exact ih (t.setObjStandaloneInit a)

theorem startStandalone_modeFields (s : Manager) :
    (s.startStandalone).mode = ReplicationManagerMode.standalone ∧
    (s.startStandalone).client = none ∧
    (s.startStandalone).server = none ∧
    (s.startStandalone).recentlyAddedObjects = [] := by
  unfold Manager.startStandalone
  obtain ⟨_, _, _, h4, h5, h6, h7⟩ := foldl_init_fields s.stop.trackedOrder
    { s.stop with mode := ReplicationManagerMode.standalone }
  exact ⟨h4, h5, h6, h7⟩

/-- C5 counterexample: after `Stop`, `StartServer` on a previously used
manager is not the same full manager state as `StartServer` on a freshly
constructed one — the registry contents (slots, heap, registration order)
survive the restart. -/
theorem stop_start_not_fresh :
    ¬ (mUsed.stop.startServer = Manager.fresh.startServer) := by decide

/-- C5 (amended): mode state is exclusive and `Stop` is an idempotent reset
(mode Standalone, no client, no server, empty standalone bookkeeping), and
`Stop` followed by any `StartX` agrees with `StartX` on a freshly
constructed manager on the mode-state-machine projection (mode, client
state, server state, standalone bookkeeping) — the registry contents,
however, persist. -/
theorem mode_exclusive_stop_reset (s : Manager) (conn : Nat) :
    (s.startServer).client = none ∧
    (s.startServer).server.isSome = true ∧
    (s.startClient conn).server = none ∧
    (s.startClient conn).client.isSome = true ∧
    s.stop.stop = s.stop ∧
    s.stop.mode = ReplicationManagerMode.standalone ∧
    s.stop.client = none ∧
    s.stop.server = none ∧
    s.stop.recentlyAddedObjects = [] ∧
    (s.stop.startServer).modeProjection = (Manager.fresh.startServer).modeProjection ∧
    (s.stop.startClient conn).modeProjection = (Manager.fresh.startClient conn).modeProjection ∧
    (s.stop.startStandalone).modeProjection = (Manager.fresh.startStandalone).modeProjection := by
  have hsc : ∀ t : Manager, (t.startClient conn).server = none ∧
      (t.startClient conn).client = some (ClientData.fresh conn) ∧
      (t.startClient conn).mode = ReplicationManagerMode.client ∧
      (t.startClient conn).recentlyAddedObjects = [] := by
    intro t
    unfold Manager.startClient
    obtain ⟨h1, h2, h3, h4, _⟩ := removeAll_fields
      { t.stop with mode := ReplicationManagerMode.client,
                    client := some (ClientData.fresh conn) }
    exact ⟨h3, h2, h1, h4 rfl⟩
  obtain ⟨a1, a2, a3, a4⟩ := hsc s
  obtain ⟨b1, b2, b3, b4⟩ := hsc s.stop
  obtain ⟨c1, c2, c3, c4⟩ := hsc Manager.fresh
  obtain ⟨d1, d2, d3, d4⟩ := startStandalone_modeFields s.stop
  obtain ⟨e1, e2, e3, e4⟩ := startStandalone_modeFields Manager.fresh
  refine ⟨rfl, rfl, a1, by rw [a2]; rfl, rfl, rfl, rfl, rfl, rfl, rfl, ?_, ?_⟩
  · unfold Manager.modeProjection
    rw [b1, b2, b3, b4, c1, c2, c3, c4]
  · unfold Manager.modeProjection
    rw [d1, d2, d3, d4, e1, e2, e3, e4]

/-- C6: `QueueNetworkObjectUpdate` on a pointer whose id no longer resolves
(checked lookup) to that same pointer leaves the whole manager — in
particular the dirty-flag vector — unchanged; on the currently registered
pointer it sets exactly the index of its id dirty. -/
theorem queueNetworkObjectUpdate_guard (s : Manager) (p : Nat) (obj : NetObj)
    (hheap : heapGet s.heap p = some obj) :
    (s.getNetworkObject obj.netId ≠ some p → s.queueNetworkObjectUpdate p = s) ∧
    (s.getNetworkObject obj.netId = some p →
      (s.queueNetworkObjectUpdate p).networkObjectsDirty =
        s.networkObjectsDirty.set obj.netId.index true ∧
      (obj.netId.index < s.networkObjectsDirty.length →
        (s.queueNetworkObjectUpdate p).networkObjectsDirty.getD obj.netId.index false = true) ∧
      (∀ j, j ≠ obj.netId.index →
        (s.queueNetworkObjectUpdate p).networkObjectsDirty.getD j false =
          s.networkObjectsDirty.getD j false)) := by
  constructor
  · intro hne
    simp only [Manager.queueNetworkObjectUpdate, hheap, if_neg hne]
  · intro heq
    have hq : (s.queueNetworkObjectUpdate p).networkObjectsDirty =
        s.networkObjectsDirty.set obj.netId.index true := by
      simp only [Manager.queueNetworkObjectUpdate, hheap, if_pos heq]
    refine ⟨hq, ?_, ?_⟩
    · intro hlt
      rw [hq, getD_set_bool]
      simp [hlt]
    · intro j hj
      rw [hq, getD_set_bool]
      simp [hj]

/-- C6 witness: in `mStale`, slot 0 was reused (version bumped), so the
stale pointer 1 queues nothing. -/
theorem queueNetworkObjectUpdate_guard_witness :
    heapGet mStale.heap 1 = some objStale ∧ mStale.queueNetworkObjectUpdate 1 = mStale := by
  refine ⟨by decide, ?_⟩
  exact (queueNetworkObjectUpdate_guard mStale 1 objStale (by decide)).1 (by decide)

/-- C7: `ProcessMessage` returns "not handled" with no state change and no
sends exactly when a pre-initialization client receives a message other
than Configure/SceneClock, or when neither client nor server state exists;
a pre-initialization client consumes every Configure/SceneClock message. -/
theorem processMessage_unhandled
    (rh : ClientReplica → InMsg → ClientReplica × Bool)
    (sh : ServerReplicator → Nat → InMsg → ServerReplicator × Bool)
    (s : Manager) (connSync : Bool) (conn : Nat) (msg : InMsg) :
    (s.client = none → s.server = none →
      processMessage rh sh s connSync conn msg = (s, [], false)) ∧
    (∀ cd, s.client = some cd → cd.replica = none →
      ((∃ i, msg = InMsg.other i) →
        processMessage rh sh s connSync conn msg = (s, [], false)) ∧
      ((∀ i, msg ≠ InMsg.other i) →
        (processMessage rh sh s connSync conn msg).2.2 = true)) := by
  constructor
  · intro h1 h2
    simp only [processMessage, h1, h2]
  · intro cd h1 h2
    constructor
    · rintro ⟨i, rfl⟩
      have hs : { s with client := some cd } = s := by
        cases s
        simp_all
      simp only [processMessage, h1, h2, processMessageOnUninitializedClient, hs]
    · intro hno
      cases msg with
      | configure magic settings =>
        simp only [processMessage, h1, h2, processMessageOnUninitializedClient]
      | sceneClock clock =>
        simp only [processMessage, h1, h2, processMessageOnUninitializedClient]
      | other i => exact absurd rfl (hno i)

/-- C7 witness: a standalone manager with neither client nor server leaves
an arbitrary message unhandled. -/
theorem processMessage_unhandled_witness :
    processMessage (fun r _ => (r, true)) (fun sv _ _ => (sv, true))
      Manager.fresh true 7 (InMsg.other 99) = (Manager.fresh, [], false) :=
  (processMessage_unhandled (fun r _ => (r, true)) (fun sv _ _ => (sv, true))
    Manager.fresh true 7 (InMsg.other 99)).1 rfl rfl

/-- C8 counterexample: a pre-initialization client that has received the
initial clock snapshot (and the settings, with a synchronized connection
clock) still lists "server scene time" as outstanding — the source appends
it whenever the wait list would otherwise be empty. -/
theorem debugWaitList_counterexample :
    cdBoth.initialClock.isSome = true ∧
    "server scene time" ∈ cdBoth.uninitializedDebugWaitList true := by
  constructor
  · rfl
  · decide

/-- C8 (amended): in the pre-initialization debug wait list, "system clock"
appears iff the connection clock is unsynchronized and "settings" appears
iff no settings bundle was received, but "server scene time" appears iff
the initial clock snapshot is missing OR the other two checks produced
nothing (the list is never empty). -/
theorem debugWaitList_membership (cd : ClientData) (connSync : Bool) :
    ("system clock" ∈ cd.uninitializedDebugWaitList connSync ↔ connSync = false) ∧
    ("settings" ∈ cd.uninitializedDebugWaitList connSync ↔ cd.serverSettings = none) ∧
    ("server scene time" ∈ cd.uninitializedDebugWaitList connSync ↔
      (cd.initialClock = none ∨ (connSync = true ∧ cd.serverSettings.isSome = true))) ∧
    cd.uninitializedDebugWaitList connSync ≠ [] := by
  cases connSync <;> cases hs : cd.serverSettings <;> cases hc : cd.initialClock <;>
    simp [ClientData.uninitializedDebugWaitList, hs, hc]

theorem set_true_preserves (l : List Bool) (j i : Nat) (h : l.getD i false = true) :
    (l.set j true).getD i false = true := by
  rw [getD_set_bool]
  by_cases hij : i = j ∧ j < l.length
  · rw [if_pos hij]
  · rw [if_neg hij, h]

theorem getD_append_left_bool (l l' : List Bool) (i : Nat) (h : i < l.length) :
    (l ++ l').getD i false = l.getD i false := by
  simp [List.getD_eq_getElem?_getD, List.getElem?_append_left h]

theorem getD_true_lt (l : List Bool) (i : Nat) (h : l.getD i false = true) :
    i < l.length := by
  by_contra hc
  rw [getD_oob_bool _ _ (Nat.le_of_not_lt hc)] at h
  cases h

theorem queue_dirty_preserves (s : Manager) (p : Nat) (i : Nat)
    (h : s.networkObjectsDirty.getD i false = true) :
    (s.queueNetworkObjectUpdate p).networkObjectsDirty.getD i false = true := by
  cases hg : heapGet s.heap p with
  | none => simpa [Manager.queueNetworkObjectUpdate, hg] using h
  | some obj =>
    by_cases hq : s.getNetworkObject obj.netId = some p
    · simp only [Manager.queueNetworkObjectUpdate, hg, if_pos hq]
      exact set_true_preserves _ _ _ h
    · simpa [Manager.queueNetworkObjectUpdate, hg, if_neg hq] using h

theorem baseAdd_fields (s : Manager) (oid : Nat) (par : Option Nat) :
    (s.baseAdd oid par).1.networkObjectsDirty = s.networkObjectsDirty ∧
    (s.baseAdd oid par).1.mode = s.mode ∧
    (s.baseAdd oid par).1.client = s.client ∧
    (s.baseAdd oid par).1.server = s.server ∧
    (s.baseAdd oid par).1.recentlyAddedObjects = s.recentlyAddedObjects := by
  cases hf : findFreeIndex s.slots <;>
    simp [Manager.baseAdd, hf]

theorem grow_set_preserves (l : List Bool) (j i : Nat) (h : l.getD i false = true) :
    ((if l.length ≤ j then l ++ List.replicate (j + 1 - l.length) false else l).set j
      true).getD i false = true := by
  split
  · apply set_true_preserves
    rw [getD_append_left_bool _ _ _ (getD_true_lt _ _ h)]
    exact h
  · exact set_true_preserves _ _ _ h

theorem addNetworkObject_dirty_preserves (s : Manager) (oid : Nat) (par : Option Nat)
    (i : Nat) (h : s.networkObjectsDirty.getD i false = true) :
    (s.addNetworkObject oid par).networkObjectsDirty.getD i false = true := by
  obtain ⟨h1, _, _, _, _⟩ := baseAdd_fields s oid par
  have hb : (s.baseAdd oid par).1.networkObjectsDirty.getD i false = true := by
    rw [h1]; exact h
  have hl : i < (s.baseAdd oid par).1.networkObjectsDirty.length := getD_true_lt _ _ hb
  have happ : ((s.baseAdd oid par).1.networkObjectsDirty ++
      List.replicate ((s.baseAdd oid par).2.index + 1 -
        (s.baseAdd oid par).1.networkObjectsDirty.length) false).getD i false = true := by
    rw [getD_append_left_bool _ _ _ hl]; exact hb
  unfold Manager.addNetworkObject
  dsimp only
  split
  · split
    · exact set_true_preserves _ _ _ happ
    · exact set_true_preserves _ _ _ happ
  · split
    · exact set_true_preserves _ _ _ hb
    · exact set_true_preserves _ _ _ hb

theorem removeErasePhase_dirty (s : Manager) (obj : NetObj) :
    (s.removeErasePhase obj).networkObjectsDirty = s.networkObjectsDirty := by
  unfold Manager.removeErasePhase
  split <;> rfl

theorem removeParentDirtyPhase_dirty_preserves (t : Manager) (obj : NetObj) (i : Nat)
    (ht : t.networkObjectsDirty.getD i false = true) :
    (t.removeParentDirtyPhase obj).networkObjectsDirty.getD i false = true := by
  cases hpar : obj.parent with
  | none => simpa [Manager.removeParentDirtyPhase, hpar] using ht
  | some p =>
    cases hgp : heapGet t.heap p with
    | none => simpa [Manager.removeParentDirtyPhase, hpar, hgp] using ht
    | some pobj =>
      by_cases hid : pobj.netId ≠ NetworkId.invalid
      · simp only [Manager.removeParentDirtyPhase, hpar, hgp, if_pos hid]
        exact queue_dirty_preserves t p i ht
      · simpa [Manager.removeParentDirtyPhase, hpar, hgp, if_neg hid] using ht

theorem removeNetworkObject_dirty_preserves (s : Manager) (oid : Nat) (i : Nat)
    (h : s.networkObjectsDirty.getD i false = true) :
    (s.removeNetworkObject oid).networkObjectsDirty.getD i false = true := by
  by_cases hmem : oid ∈ s.trackedOrder
  · cases hg : heapGet s.heap oid with
    | none => simpa [Manager.removeNetworkObject, if_pos hmem, hg] using h
    | some obj =>
      simp only [Manager.removeNetworkObject, if_pos hmem, hg]
      exact removeParentDirtyPhase_dirty_preserves _ obj i
        (by rw [removeErasePhase_dirty]; exact h)
  · simpa [Manager.removeNetworkObject, if_neg hmem] using h

theorem startStandalone_dirty (s : Manager) :
    (s.startStandalone).networkObjectsDirty = s.networkObjectsDirty := by
  unfold Manager.startStandalone
  obtain ⟨_, _, h3, _, _, _, _⟩ := foldl_init_fields s.stop.trackedOrder
    { s.stop with mode := ReplicationManagerMode.standalone }
  exact h3

theorem initFold_fields (l : List NetworkId) (t : Manager) :
    (initFold t l).slots = t.slots ∧
    (initFold t l).trackedOrder = t.trackedOrder ∧
    (initFold t l).networkObjectsDirty = t.networkObjectsDirty ∧
    (initFold t l).mode = t.mode ∧
    (initFold t l).client = t.client ∧
    (initFold t l).server = t.server ∧
    (initFold t l).recentlyAddedObjects = t.recentlyAddedObjects := by
  induction l generalizing t with
  | nil => exact ⟨rfl, rfl, rfl, rfl, rfl, rfl, rfl⟩
  | cons a tl ih =>
    have hstep : ∀ u : Manager,
        ((match u.getNetworkObject a with
          | some oid => u.setObjStandaloneInit oid
          | none => u) : Manager).slots = u.slots ∧
        ((match u.getNetworkObject a with
          | some oid => u.setObjStandaloneInit oid
          | none => u) : Manager).trackedOrder = u.trackedOrder ∧
        ((match u.getNetworkObject a with
          | some oid => u.setObjStandaloneInit oid
          | none => u) : Manager).networkObjectsDirty = u.networkObjectsDirty ∧
        ((match u.getNetworkObject a with
          | some oid => u.setObjStandaloneInit oid
          | none => u) : Manager).mode = u.mode ∧
        ((match u.getNetworkObject a with
          | some oid => u.setObjStandaloneInit oid
          | none => u) : Manager).client = u.client ∧
        ((match u.getNetworkObject a with
          | some oid => u.setObjStandaloneInit oid
          | none => u) : Manager).server = u.server ∧
        ((match u.getNetworkObject a with
          | some oid => u.setObjStandaloneInit oid
          | none => u) : Manager).recentlyAddedObjects = u.recentlyAddedObjects := by
      intro u
      cases u.getNetworkObject a <;> exact ⟨rfl, rfl, rfl, rfl, rfl, rfl, rfl⟩
    obtain ⟨a1, a2, a3, a4, a5, a6, a7⟩ := hstep t
    obtain ⟨b1, b2, b3, b4, b5, b6, b7⟩ := ih (match t.getNetworkObject a with
      | some oid => t.setObjStandaloneInit oid
      | none => t)
    exact ⟨b1.trans a1, b2.trans a2, b3.trans a3, b4.trans a4, b5.trans a5,
      b6.trans a6, b7.trans a7⟩

theorem initializeObjectsStandalone_dirty (s : Manager) :
    (s.initializeObjectsStandalone).networkObjectsDirty = s.networkObjectsDirty := by
  unfold Manager.initializeObjectsStandalone
  obtain ⟨_, _, h3, _, _, _, _⟩ := initFold_fields s.recentlyAddedObjects s
  exact h3

theorem dropConnection_dirty (s : Manager) (conn : Nat) :
    (s.dropConnection conn).networkObjectsDirty = s.networkObjectsDirty := by
  cases hs : s.server with
  | some sv => simp [Manager.dropConnection, hs]
  | none =>
    cases hc : s.client with
    | none => simp [Manager.dropConnection, hs, hc]
    | some cd =>
      by_cases hcc : cd.connection = conn
      · simp only [Manager.dropConnection, hs, hc, if_pos hcc]
        exact startStandalone_dirty s
      · simp [Manager.dropConnection, hs, hc, hcc]

theorem processMessage_dirty (rh : ClientReplica → InMsg → ClientReplica × Bool)
    (sh : ServerReplicator → Nat → InMsg → ServerReplicator × Bool)
    (s : Manager) (connSync : Bool) (conn : Nat) (msg : InMsg) :
    (processMessage rh sh s connSync conn msg).1.networkObjectsDirty =
      s.networkObjectsDirty := by
  cases hc : s.client with
  | some cd =>
    cases hr : cd.replica with
    | none => simp [processMessage, hc, hr]
    | some rep => simp [processMessage, hc, hr]
  | none =>
    cases hs : s.server with
    | some sv => simp [processMessage, hc, hs]
    | none => simp [processMessage, hc, hs]

/-- C4 counterexample: a set dirty flag survives no call of
`RemoveAllNetworkObjects` or `StartClient` — both clear the dirty-flag
vector, so they are clearing points besides `UpdateNetworkObjects`. -/
theorem removeAll_clears_dirty :
    mUsed.networkObjectsDirty.getD 0 false = true ∧
    (mUsed.removeAllNetworkObjects).networkObjectsDirty.getD 0 false = false ∧
    (mUsed.startClient 5).networkObjectsDirty.getD 0 false = false := by decide

/-- C4 (amended): `UpdateNetworkObjects` and `RemoveAllNetworkObjects`
(together with `StartClient`, which invokes the latter) are the only
operations that clear dirty flags: every other public operation of the
registry/manager — queueing updates, add, remove, `Stop`, `StartServer`,
`StartStandalone`, standalone initialization, `DropConnection` and
`ProcessMessage` — preserves every set flag. -/
theorem dirty_flag_clearing_points (s : Manager) (i : Nat)
    (h : s.networkObjectsDirty.getD i false = true) :
    (∀ p, (s.queueNetworkObjectUpdate p).networkObjectsDirty.getD i false = true) ∧
    (∀ oid par, (s.addNetworkObject oid par).networkObjectsDirty.getD i false = true) ∧
    (∀ oid, (s.removeNetworkObject oid).networkObjectsDirty.getD i false = true) ∧
    (s.stop).networkObjectsDirty = s.networkObjectsDirty ∧
    (s.startServer).networkObjectsDirty = s.networkObjectsDirty ∧
    (s.startStandalone).networkObjectsDirty = s.networkObjectsDirty ∧
    (s.initializeObjectsStandalone).networkObjectsDirty = s.networkObjectsDirty ∧
    (∀ conn, (s.dropConnection conn).networkObjectsDirty = s.networkObjectsDirty) ∧
    (∀ rh sh connSync conn msg,
      (processMessage rh sh s connSync conn msg).1.networkObjectsDirty =
        s.networkObjectsDirty) := by
  refine ⟨fun p => queue_dirty_preserves s p i h,
    fun oid par => addNetworkObject_dirty_preserves s oid par i h,
    fun oid => removeNetworkObject_dirty_preserves s oid i h,
    rfl, rfl, startStandalone_dirty s, initializeObjectsStandalone_dirty s,
    fun conn => dropConnection_dirty s conn,
    fun rh sh connSync conn msg => processMessage_dirty rh sh s connSync conn msg⟩

/-- C4 witness: the preservation theorem applied to a manager with a set
flag at index 0. -/
theorem dirty_flag_clearing_points_witness :
    (mUsed.queueNetworkObjectUpdate 1).networkObjectsDirty.getD 0 false = true :=
  (dirty_flag_clearing_points mUsed 0 (by decide)).1 1

theorem heapGet_cons (e : Nat × NetObj) (t : List (Nat × NetObj)) (oid : Nat) :
    heapGet (e :: t) oid = if e.1 = oid then some e.2 else heapGet t oid := by
  by_cases he : e.1 = oid
  · simp [heapGet, List.find?_cons_of_pos, he]
  · simp [heapGet, List.find?_cons_of_neg, he]

theorem heapGet_heapSet (h : List (Nat × NetObj)) (a oid : Nat) (f : NetObj → NetObj) :
    heapGet (heapSet h a f) oid =
      if oid = a then (heapGet h oid).map f else heapGet h oid := by
  induction h with
  | nil => simp [heapGet, heapSet]
  | cons e t ih =>
    have hs : heapSet (e :: t) a f = (if e.1 = a then (e.1, f e.2) else e) :: heapSet t a f := by
      simp [heapSet]
    by_cases hea : e.1 = a
    · rw [hs, if_pos hea, heapGet_cons, heapGet_cons]
      by_cases ho : e.1 = oid
      · have hoa : oid = a := ho.symm.trans hea
        rw [if_pos ho, if_pos ho, if_pos hoa]
        simp
      · rw [if_neg ho, if_neg ho]
        exact ih
    · rw [hs, if_neg hea, heapGet_cons, heapGet_cons]
      by_cases ho : e.1 = oid
      · have hoa : ¬ oid = a := fun hh => hea (ho.trans hh)
        rw [if_pos ho, if_pos ho, if_neg hoa]
      · rw [if_neg ho, if_neg ho]
        exact ih

theorem setObjStandaloneInit_heapGet (t : Manager) (a oid : Nat) :
    heapGet (t.setObjStandaloneInit a).heap oid =
      if oid = a then
        (heapGet t.heap oid).map (fun o =>
          { o with mode := NetworkObjectMode.standalone,
                   initStandaloneCount := o.initStandaloneCount + 1 })
      else heapGet t.heap oid := by
  unfold Manager.setObjStandaloneInit
  dsimp only
  exact heapGet_heapSet t.heap a oid (fun o =>
    { o with mode := NetworkObjectMode.standalone,
             initStandaloneCount := o.initStandaloneCount + 1 })

theorem foldl_init_heapGet (L : List Nat) (t : Manager) (hnd : L.Nodup) (oid : Nat) :
    heapGet (L.foldl (fun acc o => acc.setObjStandaloneInit o) t).heap oid =
      if oid ∈ L then
        (heapGet t.heap oid).map (fun o =>
          { o with mode := NetworkObjectMode.standalone,
                   initStandaloneCount := o.initStandaloneCount + 1 })
      else heapGet t.heap oid := by
  induction L generalizing t with
  | nil => simp
  | cons a tl ih =>
    have hnd' : tl.Nodup := hnd.of_cons
    have hna : a ∉ tl := (List.nodup_cons.mp hnd).1
    simp only [List.foldl_cons]
    rw [ih _ hnd']
    by_cases hoa : oid = a
    · subst hoa
      rw [if_neg hna, setObjStandaloneInit_heapGet, if_pos rfl, if_pos (List.mem_cons_self oid tl)]
    · rw [setObjStandaloneInit_heapGet, if_neg hoa]
      by_cases hot : oid ∈ tl
      · rw [if_pos hot, if_pos (List.mem_cons_of_mem a hot)]
      · rw [if_neg hot, if_neg (by simp [hoa, hot])]

theorem startStandalone_heapGet (s : Manager) (hnd : s.trackedOrder.Nodup) (oid : Nat) :
    heapGet (s.startStandalone).heap oid =
      if oid ∈ s.trackedOrder then
        (heapGet s.heap oid).map (fun o =>
          { o with mode := NetworkObjectMode.standalone,
                   initStandaloneCount := o.initStandaloneCount + 1 })
      else heapGet s.heap oid := by
  unfold Manager.startStandalone
  exact foldl_init_heapGet s.trackedOrder
    { s.stop with mode := ReplicationManagerMode.standalone } hnd oid

/-- C10: `DropConnection` forwards to the server replicator when a server
state exists; in client mode it restarts standalone replication exactly
when the dropped connection is the client's bound connection (destroying
the client state, handshake included, and re-initializing every registered
object as standalone), and does nothing for any other connection. -/
theorem dropConnection_behavior (s : Manager) (conn : Nat) :
    (∀ sv, s.server = some sv →
      s.dropConnection conn = { s with server := some (sv.removeConnection conn) }) ∧
    (∀ cd, s.server = none → s.client = some cd → cd.connection = conn →
      s.dropConnection conn = s.startStandalone ∧
      (s.dropConnection conn).client = none ∧
      (s.dropConnection conn).server = none ∧
      (s.dropConnection conn).mode = ReplicationManagerMode.standalone ∧
      (s.dropConnection conn).recentlyAddedObjects = [] ∧
      (s.trackedOrder.Nodup → ∀ oid ∈ s.trackedOrder,
        heapGet (s.dropConnection conn).heap oid =
          (heapGet s.heap oid).map (fun o =>
            { o with mode := NetworkObjectMode.standalone,
                     initStandaloneCount := o.initStandaloneCount + 1 }))) ∧
    (∀ cd, s.server = none → s.client = some cd → cd.connection ≠ conn →
      s.dropConnection conn = s) := by
  refine ⟨?_, ?_, ?_⟩
  · intro sv hs
    simp [Manager.dropConnection, hs]
  · intro cd hs hc hcc
    have hd : s.dropConnection conn = s.startStandalone := by
      simp [Manager.dropConnection, hs, hc, hcc]
    obtain ⟨m1, m2, m3, m4⟩ := startStandalone_modeFields s
    refine ⟨hd, by rw [hd]; exact m2, by rw [hd]; exact m3, by rw [hd]; exact m1,
      by rw [hd]; exact m4, ?_⟩
    intro hnd oid hmem
    rw [hd, startStandalone_heapGet s hnd oid, if_pos hmem]
  · intro cd hs hc hcc
    simp [Manager.dropConnection, hs, hc, hcc]

/-- C10 witness: dropping the bound connection of `mClientDrop` restarts
standalone mode and re-initializes its registered object once. -/
theorem dropConnection_behavior_witness :
    mClientDrop.dropConnection 5 = mClientDrop.startStandalone ∧
    heapGet (mClientDrop.dropConnection 5).heap 1 =
      some ⟨⟨0, 0⟩, none, .standalone, 1, 0⟩ := by
  have h := (dropConnection_behavior mClientDrop 5).2.1 (ClientData.fresh 5) rfl rfl rfl
  refine ⟨h.1, ?_⟩
  rw [h.2.2.2.2.2 (by decide) 1 (by decide)]
  decide

theorem getD_slot_oob (l : List Slot) (i : Nat) (h : l.length ≤ i) :
    l.getD i ⟨none, 0⟩ = ⟨none, 0⟩ := by
  simp [List.getD_eq_getElem?_getD, List.getElem?_eq_none h]

theorem slot_some_lt (s : Manager) (i : Nat) (o : Nat)
    (h : (s.slots.getD i ⟨none, 0⟩).obj = some o) : i < s.slots.length := by
  by_contra hc
  rw [getD_slot_oob _ _ (Nat.le_of_not_lt hc)] at h
  cases h

theorem getNetworkObject_some_iff (s : Manager) (id : NetworkId) (oid : Nat) :
    s.getNetworkObject id = some oid ↔
      ((s.slots.getD id.index ⟨none, 0⟩).obj = some oid ∧
       (s.slots.getD id.index ⟨none, 0⟩).version = id.version) := by
  unfold Manager.getNetworkObject
  generalize s.slots.getD id.index ⟨none, 0⟩ = slot
  cases hso : slot.obj with
  | none => simp [hso]
  | some o =>
    by_cases hv : slot.version = id.version
    · simp [hso, hv]
    · simp [hso, hv]

theorem getNetworkObject_inj (s : Manager)
    (hinj : ∀ i, i < s.slots.length → ∀ j, j < s.slots.length →
      (s.slots.getD i ⟨none, 0⟩).obj ≠ none →
      (s.slots.getD i ⟨none, 0⟩).obj = (s.slots.getD j ⟨none, 0⟩).obj → i = j)
    (a b : NetworkId) (oid : Nat)
    (ha : s.getNetworkObject a = some oid) (hb : s.getNetworkObject b = some oid) :
    a = b := by
  rw [getNetworkObject_some_iff] at ha hb
  have hidx : a.index = b.index :=
    hinj a.index (slot_some_lt s _ _ ha.1) b.index (slot_some_lt s _ _ hb.1)
      (by rw [ha.1]; exact Option.some_ne_none oid) (ha.1.trans hb.1.symm)
  have hver : a.version = b.version := by
    rw [← ha.2, ← hb.2, hidx]
  cases a
  cases b
  simp_all

theorem initFold_heapGet (s : Manager) (L : List NetworkId) (t : Manager)
    (hslots : t.slots = s.slots) (hnd : L.Nodup)
    (hinj : ∀ i, i < s.slots.length → ∀ j, j < s.slots.length →
      (s.slots.getD i ⟨none, 0⟩).obj ≠ none →
      (s.slots.getD i ⟨none, 0⟩).obj = (s.slots.getD j ⟨none, 0⟩).obj → i = j)
    (oid : Nat) :
    ((∃ id ∈ L, s.getNetworkObject id = some oid) →
      heapGet (initFold t L).heap oid =
        (heapGet t.heap oid).map (fun o =>
          { o with mode := NetworkObjectMode.standalone,
                   initStandaloneCount := o.initStandaloneCount + 1 })) ∧
    ((∀ id ∈ L, s.getNetworkObject id ≠ some oid) →
      heapGet (initFold t L).heap oid = heapGet t.heap oid) := by
  induction L generalizing t with
  | nil =>
    constructor
    · rintro ⟨id, hmem, _⟩
      cases hmem
    · intro _
      rfl
  | cons a tl ih =>
    have hcongr : t.getNetworkObject a = s.getNetworkObject a := by
      unfold Manager.getNetworkObject
      rw [hslots]
    have hnd' := hnd.of_cons
    have hna : a ∉ tl := (List.nodup_cons.mp hnd).1
    cases hra : s.getNetworkObject a with
    | none =>
      have hstep : initFold t (a :: tl) = initFold t tl := by
        simp only [initFold, List.foldl_cons, hcongr, hra]
      rw [hstep]
      obtain ⟨ih1, ih2⟩ := ih t hslots hnd'
      constructor
      · rintro ⟨id, hmem, hid⟩
        rcases List.mem_cons.mp hmem with h | h
        · subst h
          rw [hra] at hid
          cases hid
        · exact ih1 ⟨id, h, hid⟩
      · intro hall
        exact ih2 (fun id hmem => hall id (List.mem_cons_of_mem a hmem))
    | some o =>
      have hstep : initFold t (a :: tl) = initFold (t.setObjStandaloneInit o) tl := by
        simp only [initFold, List.foldl_cons, hcongr, hra]
      rw [hstep]
      obtain ⟨ih1, ih2⟩ := ih (t.setObjStandaloneInit o) hslots hnd'
      constructor
      · rintro ⟨id, hmem, hid⟩
        rcases List.mem_cons.mp hmem with h | h
        · rw [h, hra] at hid
          injection hid with hoid
          subst hoid
          have hnone : ∀ id ∈ tl, s.getNetworkObject id ≠ some o := by
            intro id hmem2 hres
            have hida : id = a := getNetworkObject_inj s hinj id a o hres hra
            exact hna (hida ▸ hmem2)
          rw [ih2 hnone, setObjStandaloneInit_heapGet, if_pos rfl]
        · by_cases hoo : oid = o
          · subst hoo
            have hida : id = a := getNetworkObject_inj s hinj id a oid hid hra
            subst hida
            exact absurd h hna
          · rw [ih1 ⟨id, h, hid⟩, setObjStandaloneInit_heapGet, if_neg hoo]
      · intro hall
        have hno : oid ≠ o := by
          intro hq
          subst hq
          exact hall a (List.mem_cons_self a tl) hra
        rw [ih2 (fun id hmem => hall id (List.mem_cons_of_mem a hmem)),
          setObjStandaloneInit_heapGet, if_neg hno]

/-- C9: in Standalone mode, one `InitializeObjectsStandalone` tick sets
every recently-added object that still resolves to Standalone mode and runs
its standalone initialization exactly once, leaves every other object
untouched, and empties the recently-added set; objects removed before the
tick were dropped from the set by `OnComponentRemoved` (and cannot resolve
any more).  Hypotheses: the recently-added set holds distinct ids and no
live object occupies two slots. -/
theorem initializeObjectsStandalone_spec (s : Manager)
    (hnd : s.recentlyAddedObjects.Nodup)
    (hinj : ∀ i, i < s.slots.length → ∀ j, j < s.slots.length →
      (s.slots.getD i ⟨none, 0⟩).obj ≠ none →
      (s.slots.getD i ⟨none, 0⟩).obj = (s.slots.getD j ⟨none, 0⟩).obj → i = j) :
    (s.initializeObjectsStandalone).recentlyAddedObjects = [] ∧
    (∀ id ∈ s.recentlyAddedObjects, ∀ oid, s.getNetworkObject id = some oid →
      heapGet (s.initializeObjectsStandalone).heap oid =
        (heapGet s.heap oid).map (fun o =>
          { o with mode := NetworkObjectMode.standalone,
                   initStandaloneCount := o.initStandaloneCount + 1 })) ∧
    (∀ oid, (∀ id ∈ s.recentlyAddedObjects, s.getNetworkObject id ≠ some oid) →
      heapGet (s.initializeObjectsStandalone).heap oid = heapGet s.heap oid) ∧
    (s.initializeObjectsStandalone).slots = s.slots ∧
    (s.initializeObjectsStandalone).trackedOrder = s.trackedOrder ∧
    (s.initializeObjectsStandalone).networkObjectsDirty = s.networkObjectsDirty ∧
    (s.mode = ReplicationManagerMode.standalone →
      ∀ oid obj, oid ∈ s.trackedOrder → heapGet s.heap oid = some obj →
        (s.removeNetworkObject oid).recentlyAddedObjects =
          eraseId s.recentlyAddedObjects obj.netId) := by
  obtain ⟨f1, f2, f3, _, _, _, _⟩ := initFold_fields s.recentlyAddedObjects s
  refine ⟨rfl, ?_, ?_, f1, f2, f3, ?_⟩
  · intro id hmem oid hid
    exact (initFold_heapGet s s.recentlyAddedObjects s rfl hnd hinj oid).1 ⟨id, hmem, hid⟩
  · intro oid hall
    exact (initFold_heapGet s s.recentlyAddedObjects s rfl hnd hinj oid).2 hall
  · intro hm oid obj hmem hg
    obtain ⟨d, hd⟩ := removeParentDirtyPhase_shape (s.removeErasePhase obj) obj
    have hstand : s.isStandalone = true := by
      simp [Manager.isStandalone, hm]
    simp only [Manager.removeNetworkObject, if_pos hmem, hg, hd]
    simp [Manager.removeErasePhase, hstand]

/-- C9 witness: three objects added in one standalone frame are all
initialized exactly once by the tick and the recently-added set is empty
afterwards. -/
theorem initializeObjectsStandalone_spec_witness :
    (mStandalone3.initializeObjectsStandalone).recentlyAddedObjects = [] ∧
    heapGet (mStandalone3.initializeObjectsStandalone).heap 2 =
      some ⟨⟨1, 0⟩, none, .standalone, 1, 0⟩ := by
  have h := initializeObjectsStandalone_spec mStandalone3 (by decide) (by decide)
  refine ⟨h.1, ?_⟩
  rw [h.2.1 ⟨1, 0⟩ (by decide) 2 (by decide)]
  decide

theorem runMessages_append (rh : ClientReplica → InMsg → ClientReplica × Bool)
    (sh : ServerReplicator → Nat → InMsg → ServerReplicator × Bool)
    (conn : Nat) (s : Manager) (l1 l2 : List Ev) :
    runMessages rh sh conn s (l1 ++ l2) =
      ((runMessages rh sh conn (runMessages rh sh conn s l1).1 l2).1,
       (runMessages rh sh conn s l1).2 ++
         (runMessages rh sh conn (runMessages rh sh conn s l1).1 l2).2) := by
  induction l1 generalizing s with
  | nil => simp [runMessages]
  | cons e es ih => simp [runMessages, ih, List.append_assoc]

theorem runMessages_inv (rh : ClientReplica → InMsg → ClientReplica × Bool)
    (sh : ServerReplicator → Nat → InMsg → ServerReplicator × Bool)
    (conn : Nat) (events : List Ev) :
    ∀ (s : Manager) (cd : ClientData), s.client = some cd →
      (cd.serverSettings.isSome = true → cd.ackMagic.isSome = true) →
      ∃ cd', (runMessages rh sh conn s events).1.client = some cd' ∧
        ((runMessages rh sh conn s events).2.length =
          if cd.replica.isSome then 0 else if cd'.replica.isSome then 1 else 0) ∧
        (cd.replica.isSome = true →
          cd'.ackMagic = cd.ackMagic ∧ cd'.serverSettings = cd.serverSettings ∧
          cd'.initialClock = cd.initialClock ∧ cd'.replica.isSome = true ∧
          (runMessages rh sh conn s events).2 = []) ∧
        (∀ m ∈ (runMessages rh sh conn s events).2,
          m.packet = PacketType.reliableUnordered ∧ m.connection = conn ∧
          cd'.ackMagic = some m.magic) ∧
        (∀ x, cd'.ackMagic = some x →
          cd.ackMagic = some x ∨ ∃ e ∈ events, e.configMagic = some x) ∧
        (cd.serverSettings = none → (∀ e ∈ events, e.isConfigure = false) →
          cd'.serverSettings = none) ∧
        (cd.initialClock = none → (∀ e ∈ events, e.isSceneClock = false) →
          cd'.initialClock = none) ∧
        (cd.replica = none → cd'.initialClock = none → cd'.replica = none) ∧
        (cd.replica = none → cd'.serverSettings = none → cd'.replica = none) ∧
        (cd.replica = none → (∀ e ∈ events, e.sync = false) → cd'.replica = none) ∧
        (cd'.replica = none →
          cd.serverSettings.isSome = true ∨ (∃ e ∈ events, e.isConfigure = true) →
          cd'.serverSettings.isSome = true) ∧
        (cd'.replica = none →
          cd.initialClock.isSome = true ∨ (∃ e ∈ events, e.isSceneClock = true) →
          cd'.initialClock.isSome = true) ∧
        (cd'.serverSettings.isSome = true → cd'.ackMagic.isSome = true) := by
  induction events with
  | nil =>
    intro s cd hc hma
    refine ⟨cd, ?_, ?_, ?_, ?_, ?_, ?_, ?_, ?_, ?_, ?_, ?_, ?_, ?_⟩
    · simpa [runMessages] using hc
    · cases hr : cd.replica <;> simp [runMessages, hr]
    · intro h
      exact ⟨rfl, rfl, rfl, h, rfl⟩
    · intro m hm2
      simp [runMessages] at hm2
    · intro x hx
      exact Or.inl hx
    · intro h _
      exact h
    · intro h _
      exact h
    · intro h _
      exact h
    · intro h _
      exact h
    · intro h _
      exact h
    · intro _ h
      rcases h with h | ⟨e2, he2, _⟩
      · exact h
      · cases he2
    · intro _ h
      rcases h with h | ⟨e2, he2, _⟩
      · exact h
      · cases he2
    · exact hma
  | cons e es ih =>
    obtain ⟨em, esy⟩ := e
    intro s cd hc hma
    cases hrep : cd.replica with
    | some rep =>
      have hstep : processMessage rh sh s esy conn em =
          ({ s with client := some { cd with replica := some (rh rep em).1 } }, [],
            (rh rep em).2) := by
        simp [processMessage, hc, hrep]
      have hrun : runMessages rh sh conn s (⟨em, esy⟩ :: es) =
          ((runMessages rh sh conn
              { s with client := some { cd with replica := some (rh rep em).1 } } es).1,
            (runMessages rh sh conn
              { s with client := some { cd with replica := some (rh rep em).1 } } es).2) := by
        simp [runMessages, hstep]
      obtain ⟨cd', hcd', k1, k2, k3, k4, k5, k6, k7, k8, k9, k10, k11, k12⟩ :=
        ih { s with client := some { cd with replica := some (rh rep em).1 } }
          { cd with replica := some (rh rep em).1 } rfl hma
      obtain ⟨f1, f2, f3, f4, f5⟩ := k2 (by simp)
      rw [hrun]
      refine ⟨cd', hcd', ?_, ?_, ?_, ?_, ?_, ?_, ?_, ?_, ?_, ?_, ?_, ?_⟩
      · simp [f5]
      · intro _
        exact ⟨f1, f2, f3, f4, f5⟩
      · intro m hm2
        simp [f5] at hm2
      · intro x hx
        rcases k4 x hx with h | ⟨e2, he2, hm2⟩
        · exact Or.inl h
        · exact Or.inr ⟨e2, List.mem_cons_of_mem _ he2, hm2⟩
      · intro ha hb
        exact k5 ha (fun e2 he2 => hb e2 (List.mem_cons_of_mem _ he2))
      · intro ha hb
        exact k6 ha (fun e2 he2 => hb e2 (List.mem_cons_of_mem _ he2))
      · intro h7a _
        cases h7a
      · intro h8a _
        cases h8a
      · intro h9a _
        cases h9a
      · intro h10a _
        rw [h10a] at f4
        cases f4
      · intro h11a _
        rw [h11a] at f4
        cases f4
      · exact k12
    | none =>
      cases em with
      | other i =>
        have hstep : processMessage rh sh s esy conn (InMsg.other i) =
            ({ s with client := some cd }, [], false) := by
          simp [processMessage, hc, hrep, processMessageOnUninitializedClient]
        have hrun : runMessages rh sh conn s (⟨InMsg.other i, esy⟩ :: es) =
            ((runMessages rh sh conn { s with client := some cd } es).1,
              (runMessages rh sh conn { s with client := some cd } es).2) := by
          simp [runMessages, hstep]
        obtain ⟨cd', hcd', k1, k2, k3, k4, k5, k6, k7, k8, k9, k10, k11, k12⟩ :=
          ih { s with client := some cd } cd rfl hma
        rw [hrun]
        refine ⟨cd', hcd', ?_, ?_, k3, ?_, ?_, ?_, ?_, ?_, ?_, ?_, ?_, k12⟩
        · simpa [hrep] using k1
        · intro h
          simp at h
        · intro x hx
          rcases k4 x hx with h | ⟨e2, he2, hm2⟩
          · exact Or.inl h
          · exact Or.inr ⟨e2, List.mem_cons_of_mem _ he2, hm2⟩
        · intro ha hb
          exact k5 ha (fun e2 he2 => hb e2 (List.mem_cons_of_mem _ he2))
        · intro ha hb
          exact k6 ha (fun e2 he2 => hb e2 (List.mem_cons_of_mem _ he2))
        · intro _ hb
          exact k7 hrep hb
        · intro _ hb
          exact k8 hrep hb
        · intro _ hb
          exact k9 hrep (fun e2 he2 => hb e2 (List.mem_cons_of_mem _ he2))
        · intro h10a h10b
          refine k10 h10a ?_
          rcases h10b with h | ⟨e2, he2, hcfg⟩
          · exact Or.inl h
          · rcases List.mem_cons.mp he2 with h2 | h2
            · rw [h2] at hcfg
              simp [Ev.isConfigure] at hcfg
            · exact Or.inr ⟨e2, h2, hcfg⟩
        · intro h11a h11b
          refine k11 h11a ?_
          rcases h11b with h | ⟨e2, he2, hclk⟩
          · exact Or.inl h
          · rcases List.mem_cons.mp he2 with h2 | h2
            · rw [h2] at hclk
              simp [Ev.isSceneClock] at hclk
            · exact Or.inr ⟨e2, h2, hclk⟩
      | configure m st =>
        by_cases hg : (esy && cd.initialClock.isSome) = true
        · have hga := hg
          rw [Bool.and_eq_true] at hga
          have hclk : cd.initialClock.isSome = true := hga.2
          have hsy : esy = true := hga.1
          have hstep : processMessage rh sh s esy conn (InMsg.configure m st) =
              ({ s with client := some { cd with ackMagic := some m, serverSettings := some st, replica := some ⟨conn, cd.initialClock.getD 0, st⟩ } },
                [⟨conn, m, PacketType.reliableUnordered⟩], true) := by
            simp [processMessage, hc, hrep, processMessageOnUninitializedClient,
              ClientData.tryInitialize, ClientData.isReadyToInitialize, hg]
          have hrun : runMessages rh sh conn s (⟨InMsg.configure m st, esy⟩ :: es) =
              ((runMessages rh sh conn { s with client := some { cd with ackMagic := some m, serverSettings := some st, replica := some ⟨conn, cd.initialClock.getD 0, st⟩ } } es).1,
                ⟨conn, m, PacketType.reliableUnordered⟩ ::
                  (runMessages rh sh conn { s with client := some { cd with ackMagic := some m, serverSettings := some st, replica := some ⟨conn, cd.initialClock.getD 0, st⟩ } } es).2) := by
            simp [runMessages, hstep]
          obtain ⟨cd', hcd', k1, k2, k3, k4, k5, k6, k7, k8, k9, k10, k11, k12⟩ :=
            ih { s with client := some { cd with ackMagic := some m, serverSettings := some st, replica := some ⟨conn, cd.initialClock.getD 0, st⟩ } }
              { cd with ackMagic := some m, serverSettings := some st, replica := some ⟨conn, cd.initialClock.getD 0, st⟩ } rfl (by simp)
          obtain ⟨f1, f2, f3, f4, f5⟩ := k2 (by simp)
          rw [hrun]
          refine ⟨cd', hcd', ?_, ?_, ?_, ?_, ?_, ?_, ?_, ?_, ?_, ?_, ?_, ?_⟩
          · simp [f4, f5]
          · intro h
            simp at h
          · intro m2 hm2
            rcases List.mem_cons.mp hm2 with h2 | h2
            · subst h2
              exact ⟨rfl, rfl, f1⟩
            · simp [f5] at h2
          · intro x hx
            rw [f1] at hx
            injection hx with hx2
            exact Or.inr ⟨⟨InMsg.configure m st, esy⟩, List.mem_cons_self _ _,
              by simp [Ev.configMagic, hx2]⟩
          · intro _ hb
            have hhd := hb ⟨InMsg.configure m st, esy⟩ (List.mem_cons_self _ _)
            simp [Ev.isConfigure] at hhd
          · intro ha _
            rw [f3]
            exact ha
          · intro _ h7b
            rw [f3] at h7b
            simp at h7b
            simp [h7b] at hclk
          · intro _ h8b
            rw [f2] at h8b
            simp at h8b
          · intro _ hb
            have hhd := hb ⟨InMsg.configure m st, esy⟩ (List.mem_cons_self _ _)
            simp [hsy, Ev.sync] at hhd
          · intro h10a _
            rw [h10a] at f4
            cases f4
          · intro h11a _
            rw [h11a] at f4
            cases f4
          · intro _
            simp [f1]
        · have hstep : processMessage rh sh s esy conn (InMsg.configure m st) =
              ({ s with client := some { cd with ackMagic := some m, serverSettings := some st } }, [], true) := by
            simp [processMessage, hc, hrep, processMessageOnUninitializedClient,
              ClientData.tryInitialize, ClientData.isReadyToInitialize, hg]
          have hrun : runMessages rh sh conn s (⟨InMsg.configure m st, esy⟩ :: es) =
              ((runMessages rh sh conn { s with client := some { cd with ackMagic := some m, serverSettings := some st } } es).1,
                (runMessages rh sh conn { s with client := some { cd with ackMagic := some m, serverSettings := some st } } es).2) := by
            simp [runMessages, hstep]
          obtain ⟨cd', hcd', k1, k2, k3, k4, k5, k6, k7, k8, k9, k10, k11, k12⟩ :=
            ih { s with client := some { cd with ackMagic := some m, serverSettings := some st } }
              { cd with ackMagic := some m, serverSettings := some st } rfl (by simp)
          rw [hrun]
          refine ⟨cd', hcd', ?_, ?_, k3, ?_, ?_, ?_, ?_, ?_, ?_, ?_, ?_, k12⟩
          · simpa [hrep] using k1
          · intro h
            simp at h
          · intro x hx
            rcases k4 x hx with h | ⟨e2, he2, hm2⟩
            · injection h with h2
              exact Or.inr ⟨⟨InMsg.configure m st, esy⟩, List.mem_cons_self _ _,
                by simp [Ev.configMagic, h2]⟩
            · exact Or.inr ⟨e2, List.mem_cons_of_mem _ he2, hm2⟩
          · intro _ hb
            have hhd := hb ⟨InMsg.configure m st, esy⟩ (List.mem_cons_self _ _)
            simp [Ev.isConfigure] at hhd
          · intro ha hb
            exact k6 ha (fun e2 he2 => hb e2 (List.mem_cons_of_mem _ he2))
          · intro _ hb
            exact k7 hrep hb
          · intro _ hb
            exact k8 hrep hb
          · intro _ hb
            exact k9 hrep (fun e2 he2 => hb e2 (List.mem_cons_of_mem _ he2))
          · intro h10a _
            exact k10 h10a (Or.inl (by simp))
          · intro h11a h11b
            refine k11 h11a ?_
            rcases h11b with h | ⟨e2, he2, hclk2⟩
            · exact Or.inl h
            · rcases List.mem_cons.mp he2 with h2 | h2
              · rw [h2] at hclk2
                simp [Ev.isSceneClock] at hclk2
              · exact Or.inr ⟨e2, h2, hclk2⟩
      | sceneClock c =>
        by_cases hg : (esy && cd.serverSettings.isSome) = true
        · have hga := hg
          rw [Bool.and_eq_true] at hga
          have hset : cd.serverSettings.isSome = true := hga.2
          have hsy : esy = true := hga.1
          have hack : cd.ackMagic.isSome = true := hma hset
          obtain ⟨am, ham⟩ := Option.isSome_iff_exists.mp hack
          have hstep : processMessage rh sh s esy conn (InMsg.sceneClock c) =
              ({ s with client := some { cd with initialClock := some c, replica := some ⟨conn, c, cd.serverSettings.getD 0⟩ } },
                [⟨conn, am, PacketType.reliableUnordered⟩], true) := by
            simp [processMessage, hc, hrep, processMessageOnUninitializedClient,
              ClientData.tryInitialize, ClientData.isReadyToInitialize, hg, hset, ham, hsy]
          have hrun : runMessages rh sh conn s (⟨InMsg.sceneClock c, esy⟩ :: es) =
              ((runMessages rh sh conn { s with client := some { cd with initialClock := some c, replica := some ⟨conn, c, cd.serverSettings.getD 0⟩ } } es).1,
                ⟨conn, am, PacketType.reliableUnordered⟩ ::
                  (runMessages rh sh conn { s with client := some { cd with initialClock := some c, replica := some ⟨conn, c, cd.serverSettings.getD 0⟩ } } es).2) := by
            simp [runMessages, hstep]
          obtain ⟨cd', hcd', k1, k2, k3, k4, k5, k6, k7, k8, k9, k10, k11, k12⟩ :=
            ih { s with client := some { cd with initialClock := some c, replica := some ⟨conn, c, cd.serverSettings.getD 0⟩ } }
              { cd with initialClock := some c, replica := some ⟨conn, c, cd.serverSettings.getD 0⟩ } rfl
              (fun _ => by simpa using hack)
          obtain ⟨f1, f2, f3, f4, f5⟩ := k2 (by simp)
          rw [hrun]
          refine ⟨cd', hcd', ?_, ?_, ?_, ?_, ?_, ?_, ?_, ?_, ?_, ?_, ?_, ?_⟩
          · simp [f4, f5]
          · intro h
            simp at h
          · intro m2 hm2
            rcases List.mem_cons.mp hm2 with h2 | h2
            · subst h2
              refine ⟨rfl, rfl, ?_⟩
              rw [f1, ham]
            · simp [f5] at h2
          · intro x hx
            rw [f1] at hx
            exact Or.inl hx
          · intro ha _
            rw [ha] at hset
            simp at hset
          · intro _ hb
            have hhd := hb ⟨InMsg.sceneClock c, esy⟩ (List.mem_cons_self _ _)
            simp [Ev.isSceneClock] at hhd
          · intro _ h7b
            rw [f3] at h7b
            simp at h7b
          · intro _ h8b
            rw [f2] at h8b
            simp at h8b
            simp [h8b] at hset
          · intro _ hb
            have hhd := hb ⟨InMsg.sceneClock c, esy⟩ (List.mem_cons_self _ _)
            simp [hsy, Ev.sync] at hhd
          · intro h10a _
            rw [h10a] at f4
            cases f4
          · intro h11a _
            rw [h11a] at f4
            cases f4
          · intro _
            rw [f1, ham]
            rfl
        · have hstep : processMessage rh sh s esy conn (InMsg.sceneClock c) =
              ({ s with client := some { cd with initialClock := some c } }, [], true) := by
            simp [processMessage, hc, hrep, processMessageOnUninitializedClient,
              ClientData.tryInitialize, ClientData.isReadyToInitialize, hg]
          have hrun : runMessages rh sh conn s (⟨InMsg.sceneClock c, esy⟩ :: es) =
              ((runMessages rh sh conn { s with client := some { cd with initialClock := some c } } es).1,
                (runMessages rh sh conn { s with client := some { cd with initialClock := some c } } es).2) := by
            simp [runMessages, hstep]
          obtain ⟨cd', hcd', k1, k2, k3, k4, k5, k6, k7, k8, k9, k10, k11, k12⟩ :=
            ih { s with client := some { cd with initialClock := some c } }
              { cd with initialClock := some c } rfl (by simpa using hma)
          rw [hrun]
          refine ⟨cd', hcd', ?_, ?_, k3, ?_, ?_, ?_, ?_, ?_, ?_, ?_, ?_, k12⟩
          · simpa [hrep] using k1
          · intro h
            simp at h
          · intro x hx
            rcases k4 x hx with h | ⟨e2, he2, hm2⟩
            · exact Or.inl h
            · exact Or.inr ⟨e2, List.mem_cons_of_mem _ he2, hm2⟩
          · intro ha hb
            exact k5 ha (fun e2 he2 => hb e2 (List.mem_cons_of_mem _ he2))
          · intro _ hb
            have hhd := hb ⟨InMsg.sceneClock c, esy⟩ (List.mem_cons_self _ _)
            simp [Ev.isSceneClock] at hhd
          · intro _ hb
            exact k7 hrep hb
          · intro _ hb
            exact k8 hrep hb
          · intro _ hb
            exact k9 hrep (fun e2 he2 => hb e2 (List.mem_cons_of_mem _ he2))
          · intro h10a h10b
            refine k10 h10a ?_
            rcases h10b with h | ⟨e2, he2, hcfg⟩
            · exact Or.inl h
            · rcases List.mem_cons.mp he2 with h2 | h2
              · rw [h2] at hcfg
                simp [Ev.isConfigure] at hcfg
              · exact Or.inr ⟨e2, h2, hcfg⟩
          · intro h11a _
            exact k11 h11a (Or.inl (by simp))

/-- C1: for every message sequence delivered to a freshly started client:
receiving Configure alone (no SceneClock) never creates the replica and
sends nothing, and likewise if the connection clock is never synchronized;
the number of Synchronized acknowledgements is one exactly when the replica
was created (so at most one either way), each sent to the connection over
the reliable-unordered class and carrying the magic token of a received
Configure message; and once both messages have been received and the last
of them is processed while the clock is synchronized, the replica exists. -/
theorem client_handshake_spec
    (rh : ClientReplica → InMsg → ClientReplica × Bool)
    (sh : ServerReplicator → Nat → InMsg → ServerReplicator × Bool)
    (conn : Nat) (s : Manager) (hc : s.client = some (ClientData.fresh conn))
    (events : List Ev) :
    ((∀ e ∈ events, e.isSceneClock = false) →
      (runMessages rh sh conn s events).1.clientReplica = none ∧
      (runMessages rh sh conn s events).2 = []) ∧
    ((∀ e ∈ events, e.isConfigure = false) →
      (runMessages rh sh conn s events).1.clientReplica = none ∧
      (runMessages rh sh conn s events).2 = []) ∧
    ((∀ e ∈ events, e.sync = false) →
      (runMessages rh sh conn s events).1.clientReplica = none ∧
      (runMessages rh sh conn s events).2 = []) ∧
    ((runMessages rh sh conn s events).2.length =
      if (runMessages rh sh conn s events).1.clientReplica.isSome then 1 else 0) ∧
    (∀ m ∈ (runMessages rh sh conn s events).2,
      m.packet = PacketType.reliableUnordered ∧ m.connection = conn ∧
      ∃ e ∈ events, e.configMagic = some m.magic) ∧
    (∀ evs e, events = evs ++ [e] → e.sync = true →
      e.isConfigure = true ∨ e.isSceneClock = true →
      (∃ e1 ∈ events, e1.isConfigure = true) →
      (∃ e2 ∈ events, e2.isSceneClock = true) →
      (runMessages rh sh conn s events).1.clientReplica.isSome = true) := by
  obtain ⟨cd', hcd', k1, k2, k3, k4, k5, k6, k7, k8, k9, k10, k11, k12⟩ :=
    runMessages_inv rh sh conn events s (ClientData.fresh conn) hc
      (by simp [ClientData.fresh])
  have hrepl : (runMessages rh sh conn s events).1.clientReplica = cd'.replica := by
    simp [Manager.clientReplica, hcd']
  refine ⟨?_, ?_, ?_, ?_, ?_, ?_⟩
  · intro hall
    have hcl : cd'.initialClock = none := k6 rfl hall
    have hrep : cd'.replica = none := k7 rfl hcl
    refine ⟨by rw [hrepl, hrep], ?_⟩
    refine List.length_eq_zero.mp ?_
    rw [k1]
    simp [ClientData.fresh, hrep]
  · intro hall
    have hset : cd'.serverSettings = none := k5 rfl hall
    have hrep : cd'.replica = none := k8 rfl hset
    refine ⟨by rw [hrepl, hrep], ?_⟩
    refine List.length_eq_zero.mp ?_
    rw [k1]
    simp [ClientData.fresh, hrep]
  · intro hall
    have hrep : cd'.replica = none := k9 rfl hall
    refine ⟨by rw [hrepl, hrep], ?_⟩
    refine List.length_eq_zero.mp ?_
    rw [k1]
    simp [ClientData.fresh, hrep]
  · rw [hrepl, k1]
    simp [ClientData.fresh]
  · intro m hm
    obtain ⟨p1, p2, p3⟩ := k3 m hm
    refine ⟨p1, p2, ?_⟩
    rcases k4 m.magic p3 with h | h
    · simp [ClientData.fresh] at h
    · exact h
  · intro evs e hev hsy he hcfg hclk
    subst hev
    obtain ⟨em, esy2⟩ := e
    have hsy2 : esy2 = true := hsy
    obtain ⟨cd1, hcd1, j1, j2, j3, j4, j5, j6, j7, j8, j9, j10, j11, j12⟩ :=
      runMessages_inv rh sh conn evs s (ClientData.fresh conn) hc
        (by simp [ClientData.fresh])
    have happ := runMessages_append rh sh conn s evs [⟨em, esy2⟩]
    cases hrep1 : cd1.replica with
    | some rep1 =>
      obtain ⟨cd2, hcd2, l1, l2, l3, l4, l5, l6, l7, l8, l9, l10, l11, l12⟩ :=
        runMessages_inv rh sh conn [⟨em, esy2⟩] (runMessages rh sh conn s evs).1 cd1
          hcd1 j12
      obtain ⟨g1, g2, g3, g4, g5⟩ := l2 (by rw [hrep1]; rfl)
      rw [happ]
      simpa [Manager.clientReplica, hcd2] using g4
    | none =>
      cases em with
      | other i =>
        simp [Ev.isConfigure, Ev.isSceneClock] at he
      | configure m st =>
        obtain ⟨e2, he2, hsw⟩ := hclk
        rcases List.mem_append.mp he2 with h2 | h2
        · have hclk1 : cd1.initialClock.isSome = true :=
            j11 hrep1 (Or.inr ⟨e2, h2, hsw⟩)
          rw [happ]
          simp [runMessages, processMessage, hcd1, hrep1,
            processMessageOnUninitializedClient, ClientData.tryInitialize,
            ClientData.isReadyToInitialize, Manager.clientReplica, hsy2, hclk1]
        · rcases List.mem_singleton.mp h2 with rfl
          simp [Ev.isSceneClock] at hsw
      | sceneClock c =>
        obtain ⟨e1, he1, hsw⟩ := hcfg
        rcases List.mem_append.mp he1 with h2 | h2
        · have hset1 : cd1.serverSettings.isSome = true :=
            j10 hrep1 (Or.inr ⟨e1, h2, hsw⟩)
          rw [happ]
          simp [runMessages, processMessage, hcd1, hrep1,
            processMessageOnUninitializedClient, ClientData.tryInitialize,
            ClientData.isReadyToInitialize, Manager.clientReplica, hsy2, hset1]
        · rcases List.mem_singleton.mp h2 with rfl
          simp [Ev.isConfigure] at hsw

/-- C1 witness: delivering Configure (clock unsynchronized) then SceneClock
(clock synchronized) to a fresh client emits exactly one Synchronized
acknowledgement. -/
theorem client_handshake_spec_witness :
    (runMessages rhTriv shTriv 7 mClientFresh evtsC1).2.length = 1 := by
  have h := client_handshake_spec rhTriv shTriv 7 mClientFresh (by decide) evtsC1
  rw [h.2.2.2.1]
  decide

theorem mem_take_pos (l : List Nat) (a : Nat) (i : Nat) (h : a ∈ l.take i) :
    ∃ j, ∃ (hj : j < l.length), j < i ∧ l[j] = a := by
  obtain ⟨j, hj, hja⟩ := List.getElem_of_mem h
  have hjl : j < l.length ∧ j < i := by
    simp [List.length_take] at hj
    omega
  refine ⟨j, hjl.1, hjl.2, ?_⟩
  rw [List.getElem_take] at hja
  exact hja

theorem sortedInv_init (s : Manager) (hnd : s.trackedOrder.Nodup) :
    SortedInv s s.sortedRoots 0 := by
  refine ⟨hnd.filter _, Nat.zero_le _, ?_, ?_⟩
  · intro o
    constructor
    · intro ho
      have := List.mem_filter.mp ho
      simp at this
      exact ⟨this.1, Or.inl this.2⟩
    · rintro ⟨h1, h2 | ⟨p, hp, hmem⟩⟩
      · rw [Manager.sortedRoots]
        rw [List.mem_filter]
        simp [h1, h2]
      · simp at hmem
  · intro j hj p hp
    have hmem : s.sortedRoots[j] ∈ s.sortedRoots := List.getElem_mem _
    have := (List.mem_filter.mp hmem).2
    simp at this
    rw [this] at hp
    cases hp

theorem sortedInv_step (s : Manager) (hnd : s.trackedOrder.Nodup)
    (acc : List Nat) (i : Nat) (hinv : SortedInv s acc i) (h : i < acc.length) :
    SortedInv s (acc ++ s.getChildrenNetworkObjects acc[i]) (i + 1) := by
  obtain ⟨i1, i2, i3, i4⟩ := hinv
  have hch : ∀ c, c ∈ s.getChildrenNetworkObjects acc[i] ↔
      (c ∈ s.trackedOrder ∧ s.getParentNetworkObject c = some acc[i]) := by
    intro c
    rw [Manager.getChildrenNetworkObjects, List.mem_filter]
    simp
  have hnotin : acc[i] ∉ acc.take i := by
    intro hmem
    obtain ⟨k, hk, hki, hkeq⟩ := mem_take_pos acc acc[i] i hmem
    have : k = i := (i1.getElem_inj_iff).mp hkeq
    omega
  have hdisj : ∀ a, a ∈ acc → a ∉ s.getChildrenNetworkObjects acc[i] := by
    intro a ha hain
    have hpar := ((hch a).mp hain).2
    rcases ((i3 a).mp ha).2 with hnone | ⟨p, hp, hpmem⟩
    · rw [hpar] at hnone
      cases hnone
    · rw [hpar] at hp
      injection hp with hp2
      rw [← hp2] at hpmem
      exact hnotin hpmem
  have htake : (acc ++ s.getChildrenNetworkObjects acc[i]).take (i + 1) =
      acc.take i ++ [acc[i]] := by
    rw [List.take_append_of_le_length (by omega), List.take_succ]
    simp [List.getElem?_eq_getElem h]
  refine ⟨?_, ?_, ?_, ?_⟩
  · exact i1.append (hnd.filter _) hdisj
  · simp only [List.length_append]
    omega
  · intro o
    rw [List.mem_append, htake]
    constructor
    · rintro (ho | ho)
      · obtain ⟨hot, hrest⟩ := (i3 o).mp ho
        rcases hrest with hnone | ⟨p, hp, hpmem⟩
        · exact ⟨hot, Or.inl hnone⟩
        · exact ⟨hot, Or.inr ⟨p, hp, List.mem_append_left _ hpmem⟩⟩
      · obtain ⟨hot, hpar⟩ := (hch o).mp ho
        exact ⟨hot, Or.inr ⟨acc[i], hpar, List.mem_append_right _ (List.mem_singleton_self _)⟩⟩
    · rintro ⟨hot, hnone | ⟨p, hp, hpmem⟩⟩
      · exact Or.inl ((i3 o).mpr ⟨hot, Or.inl hnone⟩)
      · rcases List.mem_append.mp hpmem with hpm | hpm
        · exact Or.inl ((i3 o).mpr ⟨hot, Or.inr ⟨p, hp, hpm⟩⟩)
        · rw [List.mem_singleton.mp hpm] at hp
          exact Or.inr ((hch o).mpr ⟨hot, hp⟩)
  · intro j hj p hp
    by_cases hjl : j < acc.length
    · have hgj : (acc ++ s.getChildrenNetworkObjects acc[i])[j] = acc[j] :=
        List.getElem_append_left hjl
      rw [hgj] at hp
      obtain ⟨k, hk, hkj, hki, hkp⟩ := i4 j hjl p hp
      refine ⟨k, by simp; omega, hkj, by omega, ?_⟩
      rw [List.getElem_append_left hk]
      exact hkp
    · have hle : acc.length ≤ j := Nat.le_of_not_lt hjl
      have hjmem : (acc ++ s.getChildrenNetworkObjects acc[i])[j] ∈
          s.getChildrenNetworkObjects acc[i] := by
        rw [List.getElem_append_right hle]
        exact List.getElem_mem _
      have hpq := ((hch _).mp hjmem).2
      rw [hpq] at hp
      injection hp with hp2
      refine ⟨i, by simp; omega, by omega, by omega, ?_⟩
      rw [List.getElem_append_left h, hp2]

theorem sortedLoop_inv (s : Manager) (hnd : s.trackedOrder.Nodup) :
    ∀ fuel acc i, SortedInv s acc i → s.trackedOrder.length + 1 - i ≤ fuel →
      SortedInv s (sortedLoop s acc i fuel) (sortedLoop s acc i fuel).length := by
  intro fuel
  induction fuel with
  | zero =>
    intro acc i hinv hfuel
    exfalso
    obtain ⟨i1, i2, i3, _⟩ := hinv
    have hsub : acc ⊆ s.trackedOrder := fun a ha => ((i3 a).mp ha).1
    have hlen : acc.length ≤ s.trackedOrder.length :=
      (List.subperm_of_subset i1 hsub).length_le
    omega
  | succ fuel ihf =>
    intro acc i hinv hfuel
    rw [sortedLoop]
    split
    case isTrue h =>
      apply ihf _ _ (sortedInv_step s hnd acc i hinv h)
      have hsub : acc ⊆ s.trackedOrder := fun a ha => ((hinv.2.2.1 a).mp ha).1
      have hlen : acc.length ≤ s.trackedOrder.length :=
        (List.subperm_of_subset hinv.1 hsub).length_le
      omega
    case isFalse h =>
      have hieq : i = acc.length := le_antisymm hinv.2.1 (Nat.le_of_not_lt h)
      exact hieq ▸ hinv

/-- C2: under duplicate-free registration, parent links confined to tracked
objects, and acyclic parent links (witnessed by a rank function), the
sorted traversal lists every registered object exactly once, and positions
every object strictly after its parent and strictly before each of its
descendants. -/
theorem getSortedNetworkObjects_spec (s : Manager)
    (hnd : s.trackedOrder.Nodup)
    (hclosed : ∀ c ∈ s.trackedOrder, ∀ p, s.getParentNetworkObject c = some p →
      p ∈ s.trackedOrder)
    (rank : Nat → Nat)
    (hrank : ∀ c ∈ s.trackedOrder, ∀ p, s.getParentNetworkObject c = some p →
      rank p < rank c) :
    (s.getSortedNetworkObjects).Nodup ∧
    (∀ o, o ∈ s.getSortedNetworkObjects ↔ o ∈ s.trackedOrder) ∧
    (∀ o ∈ s.trackedOrder, (s.getSortedNetworkObjects).count o = 1) ∧
    (∀ j, ∀ (hj : j < (s.getSortedNetworkObjects).length), ∀ p,
      s.getParentNetworkObject (s.getSortedNetworkObjects)[j] = some p →
      ∃ k, ∃ (hk : k < (s.getSortedNetworkObjects).length), k < j ∧
        (s.getSortedNetworkObjects)[k] = p) ∧
    (∀ o d, descendantRel s o d →
      ∀ j, ∀ (hj : j < (s.getSortedNetworkObjects).length),
        (s.getSortedNetworkObjects)[j] = d →
        ∃ k, ∃ (hk : k < (s.getSortedNetworkObjects).length), k < j ∧
          (s.getSortedNetworkObjects)[k] = o) := by
  have hInv : SortedInv s s.getSortedNetworkObjects
      (s.getSortedNetworkObjects).length := by
    unfold Manager.getSortedNetworkObjects
    exact sortedLoop_inv s hnd _ _ 0 (sortedInv_init s hnd) (by omega)
  obtain ⟨i1, i2, i3, i4⟩ := hInv
  have hmemb : ∀ n, ∀ o, o ∈ s.trackedOrder → rank o = n →
      o ∈ s.getSortedNetworkObjects := by
    intro n
    induction n using Nat.strong_induction_on with
    | _ n ihn =>
      intro o ho hro
      cases hp : s.getParentNetworkObject o with
      | none => exact (i3 o).mpr ⟨ho, Or.inl hp⟩
      | some p =>
        have hpo : p ∈ s.trackedOrder := hclosed o ho p hp
        have hrlt : rank p < n := hro ▸ hrank o ho p hp
        have hpL : p ∈ s.getSortedNetworkObjects := ihn (rank p) hrlt p hpo rfl
        refine (i3 o).mpr ⟨ho, Or.inr ⟨p, hp, ?_⟩⟩
        rw [List.take_length]
        exact hpL
  have hmem : ∀ o, o ∈ s.getSortedNetworkObjects ↔ o ∈ s.trackedOrder :=
    fun o => ⟨fun ho => ((i3 o).mp ho).1, fun ho => hmemb (rank o) o ho rfl⟩
  have hpar : ∀ j, ∀ (hj : j < (s.getSortedNetworkObjects).length), ∀ p,
      s.getParentNetworkObject (s.getSortedNetworkObjects)[j] = some p →
      ∃ k, ∃ (hk : k < (s.getSortedNetworkObjects).length), k < j ∧
        (s.getSortedNetworkObjects)[k] = p := by
    intro j hj p hp
    obtain ⟨k, hk, hkj, _, hkp⟩ := i4 j hj p hp
    exact ⟨k, hk, hkj, hkp⟩
  refine ⟨i1, hmem, ?_, hpar, ?_⟩
  · intro o ho
    exact List.count_eq_one_of_mem i1 ((hmem o).mpr ho)
  · intro o d hdesc
    induction hdesc with
    | single h1 =>
      intro j hj hjd
      obtain ⟨k, hk, hkj, hkp⟩ := hpar j hj o (by rw [hjd]; exact h1)
      exact ⟨k, hk, hkj, hkp⟩
    | tail hab hbd ihb =>
      intro j hj hjd
      obtain ⟨k, hk, hkj, hkb⟩ := hpar j hj _ (by rw [hjd]; exact hbd)
      obtain ⟨k2, hk2, hk2k, hk2o⟩ := ihb k hk hkb
      exact ⟨k2, hk2, by omega, hk2o⟩

/-- C2 witness: the three-object chain is listed root-first. -/
theorem getSortedNetworkObjects_spec_witness :
    mChain.getSortedNetworkObjects = [1, 2, 3] ∧
    mChain.getSortedNetworkObjects.Nodup := by
  refine ⟨by decide, ?_⟩
  have hm : mChain.trackedOrder = [1, 2, 3] := by decide
  have hc : ∀ c ∈ mChain.trackedOrder, ∀ p,
      mChain.getParentNetworkObject c = some p → p ∈ mChain.trackedOrder := by
    intro c hc2 p hp
    rw [hm] at hc2 ⊢
    fin_cases hc2
    · rw [show mChain.getParentNetworkObject 1 = none from by decide] at hp
      cases hp
    · rw [show mChain.getParentNetworkObject 2 = some 1 from by decide] at hp
      injection hp with hp2
      subst hp2
      decide
    · rw [show mChain.getParentNetworkObject 3 = some 2 from by decide] at hp
      injection hp with hp2
      subst hp2
      decide
  have hr : ∀ c ∈ mChain.trackedOrder, ∀ p,
      mChain.getParentNetworkObject c = some p → p < c := by
    intro c hc2 p hp
    rw [hm] at hc2
    fin_cases hc2
    · rw [show mChain.getParentNetworkObject 1 = none from by decide] at hp
      cases hp
    · rw [show mChain.getParentNetworkObject 2 = some 1 from by decide] at hp
      injection hp with hp2
      subst hp2
      decide
    · rw [show mChain.getParentNetworkObject 3 = some 2 from by decide] at hp
      injection hp with hp2
      subst hp2
      decide
  exact (getSortedNetworkObjects_spec mChain (by decide) hc (fun x => x) hr).1

end Rbfx
